import Mathlib

/-!
Verification of the sub-pixel extremum localization engine of
`src/analysis/subpixel_location.cpp` (DIPlib).

Samples (C++ `dfloat`) are modelled as rationals `ℚ`; the natural logarithm
and exponential applied by the Gaussian variants (`std::log`, `std::exp`) are
not rational-valued, so every function of this development that may apply them
is parameterized by two abstract functions `rlog rexp : ℚ → ℚ` standing for
them; properties that hold for every choice of `rlog`/`rexp` hold in
particular for the real log/exp.

An image is a scalar sample grid with the type/shape flags the checked
preconditions inspect; sample addressing by integer coordinate stands for the
pointer-plus-stride addressing of the C++ code (the strided container is an
external collaborator per the spec).
-/

/-- Error conditions thrown via `DIP_THROW` / `DIP_THROW_IF` in the source. -/
inductive DipError : Type where
  | IMAGE_NOT_FORGED
  | IMAGE_NOT_SCALAR
  | DATA_TYPE_NOT_SUPPORTED
  | DIMENSIONALITY_NOT_SUPPORTED
  | ARRAY_PARAMETER_WRONG_LENGTH
  | COORDS_OUT_OF_BOUNDS
  | INVALID_FLAG
  | ILLEGAL_DIMENSIONALITY
  | NTENSORELEM_DONT_MATCH
  | PARAMETER_OUT_OF_RANGE
  deriving DecidableEq, Repr

/-- `dip::SubpixelLocationResult`: refined coordinates plus interpolated value. -/
structure SubpixelLocationResult : Type where
  coordinates : List ℚ
  value : ℚ
  deriving DecidableEq, Repr

/-- The scalar sample grid (`dip::Image`) restricted to what the engine
inspects: the forged/scalar/real flags, per-axis sizes, the per-point tensor
length, and the samples themselves, addressed by integer coordinate. -/
structure Img : Type where
  forged : Bool
  scalar : Bool
  dtypeReal : Bool
  sizes : List Nat
  tensorElements : Nat
  data : List Nat → ℚ

/-- Modelled from the spec: the six method-name string constants and the two
polarity names (`dip::S::...`, whose defining header is not among the sources;
the spec lists the six names as Linear, ParabolicSeparable, GaussianSeparable,
Parabolic, Gaussian, Integer and the polarities Maximum, Minimum). -/
def Slinear : String := "linear"

def Sparabolic : String := "parabolic"

def SparabolicSeparable : String := "parabolic separable"

def Sgaussian : String := "gaussian"

def SgaussianSeparable : String := "gaussian separable"

def Sinteger : String := "integer"

def Smaximum : String := "maximum"

def Sminimum : String := "minimum"

/-- `SubpixelExtremumMethod` of the source. -/
inductive SubpixelExtremumMethod : Type where
  | LINEAR
  | PARABOLIC_SEPARABLE
  | GAUSSIAN_SEPARABLE
  | PARABOLIC
  | GAUSSIAN
  | INTEGER
  deriving DecidableEq, Repr

open SubpixelExtremumMethod

/-- `ParseMethod`: map the method string to the enumeration, throwing
`DIP_THROW_INVALID_FLAG` on an unknown name, and for 1D images normalize the
joint methods to their separable twins. -/
def ParseMethod (s : String) (nDims : Nat) : Except DipError SubpixelExtremumMethod :=
  match (if s = Slinear then some LINEAR
         else if s = Sparabolic then some PARABOLIC
         else if s = SparabolicSeparable then some PARABOLIC_SEPARABLE
         else if s = Sgaussian then some GAUSSIAN
         else if s = SgaussianSeparable then some GAUSSIAN_SEPARABLE
         else if s = Sinteger then some INTEGER
         else none) with
  | none => .error .INVALID_FLAG
  | some m =>
      .ok (if nDims = 1 then
             (if m = PARABOLIC then PARABOLIC_SEPARABLE
              else if m = GAUSSIAN then GAUSSIAN_SEPARABLE
              else m)
           else m)

/-- Modelled from the spec: `dip::BooleanFromString` (library utility not among
the sources) — `true` when the string equals the first name, `false` when it
equals the second, an invalid-flag error otherwise. -/
def BooleanFromString (s tName fName : String) : Except DipError Bool :=
  if s = tName then .ok true
  else if s = fName then .ok false
  else .error .INVALID_FLAG

/-- The coordinate `p` with entry `i` moved by `d` samples: the model of
dereferencing `in + d * input.Stride(i)`. -/
def offAt (p : List Nat) (i : Nat) (d : Int) : List Nat :=
  p.set i ((p.getD i 0 : Int) + d).toNat

/-- Neighbor sample `d` steps along axis `i` from position `p`. -/
def nbr (img : Img) (p : List Nat) (i : Nat) (d : Int) : ℚ :=
  img.data (offAt p i d)

/-- Dot product of a weight row with the sample vector (the inner loop of the
least-squares shortcut `a[ii] += w[kk++] * t[jj]`). -/
def lincomb (w t : List ℚ) : ℚ :=
  (List.zipWith (fun a b => a * b) w t).sum

/-- The 6×9 weight table `w` of `quadratic_fit_3x3`, flattened row-major as in
the source. -/
def w2 : List ℚ :=
  [ -2/3,  4/3, -2/3,  4/3, 10/3,  4/3, -2/3,  4/3, -2/3,
    -1,    0,    1,   -1,    0,    1,   -1,    0,    1,
    -1,   -1,   -1,    0,    0,    0,    1,    1,    1,
     1,   -2,    1,    1,   -2,    1,    1,   -2,    1,
     1,    1,    1,   -2,   -2,   -2,    1,    1,    1,
     3/2,  0,   -3/2,  0,    0,    0,   -3/2,  0,    3/2 ]

/-- Coefficient `a[i]` of the 2D quadratic least-squares fit:
row `i` of `w2` dotted with the 9 samples, divided by 6. -/
def acoef2 (t : List ℚ) (i : Nat) : ℚ :=
  lincomb ((w2.drop (9 * i)).take 9) t / 6

/-- `denom = a5*a5 - 4*a3*a4` of `quadratic_fit_3x3`. -/
def qdenom (t : List ℚ) : ℚ :=
  acoef2 t 5 * acoef2 t 5 - 4 * acoef2 t 3 * acoef2 t 4

/-- The x-offset solved from the zero-gradient 2×2 system. -/
def qx (t : List ℚ) : ℚ :=
  (2 * acoef2 t 4 * acoef2 t 1 - acoef2 t 5 * acoef2 t 2) / qdenom t

/-- The y-offset solved from the zero-gradient 2×2 system. -/
def qy (t : List ℚ) : ℚ :=
  (2 * acoef2 t 3 * acoef2 t 2 - acoef2 t 5 * acoef2 t 1) / qdenom t

/-- The fitted value at the computed offset. -/
def qval (t : List ℚ) : ℚ :=
  acoef2 t 0 + acoef2 t 1 * qx t + acoef2 t 2 * qy t + acoef2 t 3 * qx t * qx t +
    acoef2 t 4 * qy t * qy t + acoef2 t 5 * qx t * qy t

/-- `quadratic_fit_3x3`: joint 2D quadratic fit over the 9-sample stencil.
Returns `none` ("no valid fit") when the zero-gradient system is singular or
the computed offset leaves `[-0.75, 0.75]` along either axis. -/
def quadratic_fit_3x3 (t : List ℚ) : Option (ℚ × ℚ × ℚ) :=
  if qdenom t = 0 then none
  else if qx t < -3/4 ∨ qx t > 3/4 ∨ qy t < -3/4 ∨ qy t > 3/4 then none
  else some (qx t, qy t, qval t)

/-- The 10×27 weight table `w` of `quadratic_fit_3x3x3`, flattened row-major
as in the source. -/
def w3 : List ℚ :=
  [ -4/3,  2/3, -4/3,  2/3,  8/3,  2/3, -4/3,  2/3, -4/3,
     2/3,  8/3,  2/3,  8/3, 14/3,  8/3,  2/3,  8/3,  2/3,
    -4/3,  2/3, -4/3,  2/3,  8/3,  2/3, -4/3,  2/3, -4/3,
    -1, 0, 1, -1, 0, 1, -1, 0, 1, -1, 0, 1, -1, 0, 1, -1, 0, 1, -1, 0, 1, -1, 0, 1, -1, 0, 1,
    -1, -1, -1, 0, 0, 0, 1, 1, 1, -1, -1, -1, 0, 0, 0, 1, 1, 1, -1, -1, -1, 0, 0, 0, 1, 1, 1,
    -1, -1, -1, -1, -1, -1, -1, -1, -1, 0, 0, 0, 0, 0, 0, 0, 0, 0, 1, 1, 1, 1, 1, 1, 1, 1, 1,
     1, -2, 1, 1, -2, 1, 1, -2, 1, 1, -2, 1, 1, -2, 1, 1, -2, 1, 1, -2, 1, 1, -2, 1, 1, -2, 1,
     1, 1, 1, -2, -2, -2, 1, 1, 1, 1, 1, 1, -2, -2, -2, 1, 1, 1, 1, 1, 1, -2, -2, -2, 1, 1, 1,
     1, 1, 1, 1, 1, 1, 1, 1, 1, -2, -2, -2, -2, -2, -2, -2, -2, -2, 1, 1, 1, 1, 1, 1, 1, 1, 1,
     3/2, 3/2, 3/2, 0, 0, 0, -3/2, -3/2, -3/2, 0, 0, 0, 0, 0, 0, 0, 0, 0,
    -3/2, -3/2, -3/2, 0, 0, 0, 3/2, 3/2, 3/2,
     3/2, 0, -3/2, 3/2, 0, -3/2, 3/2, 0, -3/2, 0, 0, 0, 0, 0, 0, 0, 0, 0,
    -3/2, 0, 3/2, -3/2, 0, 3/2, -3/2, 0, 3/2,
     3/2, 0, -3/2, 0, 0, 0, -3/2, 0, 3/2, 3/2, 0, -3/2, 0, 0, 0, -3/2, 0, 3/2,
     3/2, 0, -3/2, 0, 0, 0, -3/2, 0, 3/2 ]

/-- Coefficient `a[i]` of the 3D quadratic least-squares fit:
row `i` of `w3` dotted with the 27 samples, divided by 18. -/
def acoef3 (t : List ℚ) (i : Nat) : ℚ :=
  lincomb ((w3.drop (27 * i)).take 27) t / 18

/-- Determinant of a 3×3 matrix given row-major. -/
def det3 (b0 b1 b2 b3 b4 b5 b6 b7 b8 : ℚ) : ℚ :=
  b0 * (b4 * b8 - b5 * b7) - b1 * (b3 * b8 - b5 * b6) + b2 * (b3 * b7 - b4 * b6)

/-- Modelled from the spec: `dip::Solve(3, 3, b, c, c)` — the "general small
linear solve" used for the 3D zero-gradient system; its implementation is not
among the sources. Modelled by Cramer's rule, returning the zero vector for a
singular system. -/
def solve3 (b0 b1 b2 b3 b4 b5 b6 b7 b8 c0 c1 c2 : ℚ) : ℚ × ℚ × ℚ :=
  let d := det3 b0 b1 b2 b3 b4 b5 b6 b7 b8
  if d = 0 then (0, 0, 0)
  else (det3 c0 b1 b2 c1 b4 b5 c2 b7 b8 / d,
        det3 b0 c0 b2 b3 c1 b5 b6 c2 b8 / d,
        det3 b0 b1 c0 b3 b4 c1 b6 b7 c2 / d)

/-- The offsets of the 3D fit: solution of the 3×3 zero-gradient system
built from `a[4] .. a[9]` with right-hand side `(-a[1], -a[2], -a[3])`. -/
def q3off (t : List ℚ) : ℚ × ℚ × ℚ :=
  solve3 (2 * acoef3 t 4) (acoef3 t 9) (acoef3 t 8)
         (acoef3 t 9) (2 * acoef3 t 5) (acoef3 t 7)
         (acoef3 t 8) (acoef3 t 7) (2 * acoef3 t 6)
         (-(acoef3 t 1)) (-(acoef3 t 2)) (-(acoef3 t 3))

/-- The fitted 3D value at offsets `(x, y, z)`. -/
def q3val (t : List ℚ) (x y z : ℚ) : ℚ :=
  acoef3 t 0 + acoef3 t 1 * x + acoef3 t 2 * y + acoef3 t 3 * z + acoef3 t 4 * x * x +
    acoef3 t 5 * y * y + acoef3 t 6 * z * z + acoef3 t 7 * y * z + acoef3 t 8 * z * x +
    acoef3 t 9 * x * y

/-- `quadratic_fit_3x3x3`: joint 3D quadratic fit over the 27-sample stencil.
Returns `none` when the computed offset leaves `[-0.75, 0.75]` along any
axis. -/
def quadratic_fit_3x3x3 (t : List ℚ) : Option (ℚ × ℚ × ℚ × ℚ) :=
  match q3off t with
  | (x, y, z) =>
      if x < -3/4 ∨ x > 3/4 ∨ y < -3/4 ∨ y > 3/4 ∨ z < -3/4 ∨ z > 3/4 then none
      else some (x, y, z, q3val t x y z)

/-- `log_transform`: log of each sample, or of its negation when `invert`. -/
def log_transform (rlog : ℚ → ℚ) (t : List ℚ) (invert : Bool) : List ℚ :=
  t.map (fun q => rlog (if invert then -q else q))

/-- Position moved by `(di, dj)` along axes 0 and 1. -/
def off2 (p : List Nat) (di dj : Int) : List Nat :=
  offAt (offAt p 0 di) 1 dj

/-- Position moved by `(di, dj, dk)` along axes 0, 1 and 2. -/
def off3 (p : List Nat) (di dj dk : Int) : List Nat :=
  offAt (offAt (offAt p 0 di) 1 dj) 2 dk

/-- The 9-sample 3×3 neighborhood, fastest axis first (`jj` outer, `ii`
inner, as in the source loops). -/
def stencil2 (img : Img) (p : List Nat) : List ℚ :=
  [ img.data (off2 p (-1) (-1)), img.data (off2 p 0 (-1)), img.data (off2 p 1 (-1)),
    img.data (off2 p (-1) 0),    img.data (off2 p 0 0),    img.data (off2 p 1 0),
    img.data (off2 p (-1) 1),    img.data (off2 p 0 1),    img.data (off2 p 1 1) ]

/-- The 27-sample 3×3×3 neighborhood (`kk` outermost as in the source). -/
def stencil3 (img : Img) (p : List Nat) : List ℚ :=
  [ img.data (off3 p (-1) (-1) (-1)), img.data (off3 p 0 (-1) (-1)), img.data (off3 p 1 (-1) (-1)),
    img.data (off3 p (-1) 0 (-1)),    img.data (off3 p 0 0 (-1)),    img.data (off3 p 1 0 (-1)),
    img.data (off3 p (-1) 1 (-1)),    img.data (off3 p 0 1 (-1)),    img.data (off3 p 1 1 (-1)),
    img.data (off3 p (-1) (-1) 0),    img.data (off3 p 0 (-1) 0),    img.data (off3 p 1 (-1) 0),
    img.data (off3 p (-1) 0 0),       img.data (off3 p 0 0 0),       img.data (off3 p 1 0 0),
    img.data (off3 p (-1) 1 0),       img.data (off3 p 0 1 0),       img.data (off3 p 1 1 0),
    img.data (off3 p (-1) (-1) 1),    img.data (off3 p 0 (-1) 1),    img.data (off3 p 1 (-1) 1),
    img.data (off3 p (-1) 0 1),       img.data (off3 p 0 0 1),       img.data (off3 p 1 0 1),
    img.data (off3 p (-1) 1 1),       img.data (off3 p 0 1 1),       img.data (off3 p 1 1 1) ]

/-- The three samples along axis `i` (`t[0], t[1], t[2]` of the per-axis
loops), negated when `invert` (Linear method only). -/
def linT (img : Img) (p : List Nat) (invert : Bool) (i : Nat) : ℚ × ℚ × ℚ :=
  let t0 := nbr img p i (-1)
  let t1 := img.data p
  let t2 := nbr img p i 1
  if invert then (-t0, -t1, -t2) else (t0, t1, t2)

/-- The center-of-gravity offset from three samples: shift them by their
minimum and take `(t[2]-t[0]) / m` when the sum `m` is nonzero, else 0. -/
def cogOffset (t0 t1 t2 : ℚ) : ℚ :=
  let b := min (min t0 t1) t2
  let u0 := t0 - b
  let u1 := t1 - b
  let u2 := t2 - b
  let m := u0 + u1 + u2
  if m = 0 then 0 else (u2 - u0) / m

/-- Per-axis coordinate of the Linear (center-of-gravity) method. -/
def linearCoord (img : Img) (p : List Nat) (invert : Bool) (i : Nat) : ℚ :=
  match linT img p invert i with
  | (t0, t1, t2) => (p.getD i 0 : ℚ) + cogOffset t0 t1 t2

/-- The three samples along axis `i` for the separable fits; for the Gaussian
variant they are log-transformed, with sign inversion when the center sample
is negative. -/
def sepT (rlog : ℚ → ℚ) (gauss : Bool) (img : Img) (p : List Nat) (i : Nat) : ℚ × ℚ × ℚ :=
  let t0 := nbr img p i (-1)
  let t1 := img.data p
  let t2 := nbr img p i 1
  if gauss then
    let inv : Bool := decide (t1 < 0)
    (rlog (if inv then -t0 else t0), rlog (if inv then -t1 else t1),
     rlog (if inv then -t2 else t2))
  else (t0, t1, t2)

/-- Per-axis coordinate of the separable parabolic/Gaussian fit:
`(t[0]-t[2]) / (2*m)` with `m = t[0]-2*t[1]+t[2]` when `m` is nonzero. -/
def sepCoord (rlog : ℚ → ℚ) (gauss : Bool) (img : Img) (p : List Nat) (i : Nat) : ℚ :=
  match sepT rlog gauss img p i with
  | (t0, t1, t2) =>
      let m := t0 - 2 * t1 + t2
      (p.getD i 0 : ℚ) + (if m = 0 then 0 else (t0 - t2) / (2 * m))

/-- Per-axis interpolated value candidate of the separable fit (`none` when
`m = 0`, matching "no value update" for that axis); for the Gaussian variant
the parabolic value is exponentiated back and its sign restored. -/
def sepVal (rlog rexp : ℚ → ℚ) (gauss : Bool) (img : Img) (p : List Nat) (i : Nat) :
    Option ℚ :=
  match sepT rlog gauss img p i with
  | (t0, t1, t2) =>
      let m := t0 - 2 * t1 + t2
      if m = 0 then none
      else
        let b := t1 - (t0 - t2) * (t0 - t2) / (8 * m)
        some (if gauss then (let e := rexp b; if img.data p < 0 then -e else e) else b)

/-- Fold of the per-axis value candidates: each candidate is combined with
`max` (Maximum polarity) or `min` (Minimum polarity), starting from the raw
center sample. -/
def clampFold (invert : Bool) (center : ℚ) (cands : List (Option ℚ)) : ℚ :=
  cands.foldl (fun acc ob => match ob with
    | none => acc
    | some b => if invert then min acc b else max acc b) center

/-- The value reported by the separable fits across all axes. -/
def sepValue (rlog rexp : ℚ → ℚ) (gauss : Bool) (invert : Bool) (img : Img)
    (p : List Nat) (nd : Nat) : ℚ :=
  clampFold invert (img.data p) ((List.range nd).map (sepVal rlog rexp gauss img p))

/-- Exponentiate the fitted Gaussian value back and restore its sign. -/
def gaussVal (rexp : ℚ → ℚ) (inverted : Bool) (v : ℚ) : ℚ :=
  let e := rexp v
  if inverted then -e else e

/-- The coordinates produced by the joint 2D branch: the integer position,
moved by the fitted offsets only when the fit succeeded. -/
def jointCoords2 (position : List Nat) (fit : Option (ℚ × ℚ × ℚ)) : List ℚ :=
  match fit with
  | none => [(position.getD 0 0 : ℚ), (position.getD 1 0 : ℚ)]
  | some (x, y, _) => [(position.getD 0 0 : ℚ) + x, (position.getD 1 0 : ℚ) + y]

/-- The `val` variable of the joint 2D branch: it keeps its initializer `0`
when the fit failed; on success the Gaussian variant exponentiates it back
and restores its sign. -/
def jointVal2 (rexp : ℚ → ℚ) (gauss inverted : Bool) (fit : Option (ℚ × ℚ × ℚ)) : ℚ :=
  match fit with
  | none => 0
  | some (_, _, v) => if gauss then gaussVal rexp inverted v else v

/-- The coordinates produced by the joint 3D branch. -/
def jointCoords3 (position : List Nat) (fit : Option (ℚ × ℚ × ℚ × ℚ)) : List ℚ :=
  match fit with
  | none => [(position.getD 0 0 : ℚ), (position.getD 1 0 : ℚ), (position.getD 2 0 : ℚ)]
  | some (x, y, z, _) =>
      [(position.getD 0 0 : ℚ) + x, (position.getD 1 0 : ℚ) + y, (position.getD 2 0 : ℚ) + z]

/-- The `val` variable of the joint 3D branch. -/
def jointVal3 (rexp : ℚ → ℚ) (gauss inverted : Bool) (fit : Option (ℚ × ℚ × ℚ × ℚ)) : ℚ :=
  match fit with
  | none => 0
  | some (_, _, _, v) => if gauss then gaussVal rexp inverted v else v

/-- The stencil handed to the 2D fit: log-transformed (with sign inversion
when the stencil center `t[4]` is negative) for the Gaussian method, raw
otherwise. -/
def jointStencil2 (rlog : ℚ → ℚ) (img : Img) (position : List Nat) (gauss : Bool) : List ℚ :=
  let t := stencil2 img position
  if gauss then log_transform rlog t (decide (t.getD 4 0 < 0)) else t

/-- The stencil handed to the 3D fit (center sample `t[13]`). -/
def jointStencil3 (rlog : ℚ → ℚ) (img : Img) (position : List Nat) (gauss : Bool) : List ℚ :=
  let t := stencil3 img position
  if gauss then log_transform rlog t (decide (t.getD 13 0 < 0)) else t

/-- The joint (non-separable) parabolic/Gaussian branch of
`SubpixelLocationInternal`: dimensionality 2 or 3 only; on fit failure the
coordinates stay at the integer position and `val` keeps its initializer `0`;
finally the value is clamped against the raw center sample. -/
def jointResult (rlog rexp : ℚ → ℚ) (img : Img) (position : List Nat)
    (gauss : Bool) (invert : Bool) : Except DipError SubpixelLocationResult :=
  let center := img.data position
  match img.sizes.length with
  | 2 =>
      let inverted : Bool := decide ((stencil2 img position).getD 4 0 < 0)
      let fit := quadratic_fit_3x3 (jointStencil2 rlog img position gauss)
      let val := jointVal2 rexp gauss inverted fit
      .ok ⟨jointCoords2 position fit, if invert then min center val else max center val⟩
  | 3 =>
      let inverted : Bool := decide ((stencil3 img position).getD 13 0 < 0)
      let fit := quadratic_fit_3x3x3 (jointStencil3 rlog img position gauss)
      let val := jointVal3 rexp gauss inverted fit
      .ok ⟨jointCoords3 position fit, if invert then min center val else max center val⟩
  | _ => .error .ILLEGAL_DIMENSIONALITY

/-- `SubpixelLocationInternal`: per-method refinement around a non-border
candidate; `invert` is true for Minimum polarity. -/
def SubpixelLocationInternal (rlog rexp : ℚ → ℚ) (img : Img) (position : List Nat)
    (method : SubpixelExtremumMethod) (invert : Bool) :
    Except DipError SubpixelLocationResult :=
  let nd := img.sizes.length
  let center := img.data position
  match method with
  | LINEAR =>
      .ok ⟨(List.range nd).map (linearCoord img position invert), center⟩
  | PARABOLIC_SEPARABLE =>
      .ok ⟨(List.range nd).map (sepCoord rlog false img position),
           sepValue rlog rexp false invert img position nd⟩
  | GAUSSIAN_SEPARABLE =>
      .ok ⟨(List.range nd).map (sepCoord rlog true img position),
           sepValue rlog rexp true invert img position nd⟩
  | PARABOLIC => jointResult rlog rexp img position false invert
  | GAUSSIAN => jointResult rlog rexp img position true invert
  | INTEGER =>
      .ok ⟨(List.range nd).map (fun i => (position.getD i 0 : ℚ)), center⟩

/-- The border test loop of `SubpixelLocation`: scan the axes in order; at the
first axis whose coordinate is within 1 of the boundary, report `some true`
when the coordinate is out of the image bounds (an error) and `some false`
otherwise (the unrefined early return); `none` when no axis triggers. -/
def borderScan : List Nat → List Nat → Option Bool
  | p :: ps, s :: ss =>
      if p < 1 ∨ s - 1 ≤ p then some (decide (s ≤ p)) else borderScan ps ss
  | _, _ => none

/-- `SubpixelLocation`: the public single-candidate entry point. -/
def SubpixelLocation (rlog rexp : ℚ → ℚ) (img : Img) (position : List Nat)
    (polarity s_method : String) : Except DipError SubpixelLocationResult :=
  if ¬ img.forged then .error .IMAGE_NOT_FORGED
  else if ¬ img.scalar then .error .IMAGE_NOT_SCALAR
  else if ¬ img.dtypeReal then .error .DATA_TYPE_NOT_SUPPORTED
  else if img.sizes.length < 1 then .error .DIMENSIONALITY_NOT_SUPPORTED
  else if position.length ≠ img.sizes.length then .error .ARRAY_PARAMETER_WRONG_LENGTH
  else
    match borderScan position img.sizes with
    | some true => .error .COORDS_OUT_OF_BOUNDS
    | some false => .ok ⟨position.map (fun n => (n : ℚ)), img.data position⟩
    | none =>
        match BooleanFromString polarity Sminimum Smaximum with
        | .error e => .error e
        | .ok invert =>
            match ParseMethod s_method img.sizes.length with
            | .error e => .error e
            | .ok method => SubpixelLocationInternal rlog rexp img position method invert

/-- `FloatArray::norm_square`: sum of squared entries. -/
def norm_square (v : List ℚ) : ℚ :=
  (v.map (fun q => q * q)).sum

/-- The do-while loop of `MeanShift`: interpolate the field at the current
point, add the displacement, and stop once its squared norm is at most
`eps2`. The C++ loop is unbounded; `fuel` bounds the recursion, `none`
standing for "not converged within `fuel` iterations". -/
def meanShiftLoop (interp : List ℚ → List ℚ) (eps2 : ℚ) : Nat → List ℚ → Option (List ℚ)
  | 0, _ => none
  | fuel + 1, pt =>
      let ms := interp pt
      let pt2 := List.zipWith (fun a b => a + b) pt ms
      if norm_square ms ≤ eps2 then some pt2
      else meanShiftLoop interp eps2 fuel pt2

/-- `MeanShift`: precondition checks in source order, then the tracking loop.
The interpolation capability (`ResampleAtUnchecked` with cubic interpolation)
is an external collaborator, passed as `interp`. -/
def MeanShift (field : Img) (interp : List ℚ → List ℚ) (start : List ℚ)
    (epsilon : ℚ) (fuel : Nat) : Except DipError (Option (List ℚ)) :=
  if ¬ field.forged then .error .IMAGE_NOT_FORGED
  else if field.tensorElements ≠ field.sizes.length then .error .NTENSORELEM_DONT_MATCH
  else if ¬ field.dtypeReal then .error .DATA_TYPE_NOT_SUPPORTED
  else if start.length ≠ field.sizes.length then .error .ARRAY_PARAMETER_WRONG_LENGTH
  else if epsilon ≤ 0 then .error .PARAMETER_OUT_OF_RANGE
  else .ok (meanShiftLoop interp (epsilon * epsilon) fuel start)

/-! ### Border scanning lemmas -/

/-- If every axis is in bounds, the border scan never reports out-of-bounds. -/
lemma borderScan_inbounds (pos sizes : List Nat)
    (hin : ∀ i, i < sizes.length → pos.getD i 0 < sizes.getD i 0) :
    borderScan pos sizes ≠ some true := by
  induction pos generalizing sizes with
  | nil => cases sizes <;> simp [borderScan]
  | cons p ps ih =>
      cases sizes with
      | nil => simp [borderScan]
      | cons s ss =>
          have h0 : p < s := by
            have := hin 0 (by simp)
            simpa using this
          by_cases hb : p < 1 ∨ s - 1 ≤ p
          · simp only [borderScan, if_pos hb]
            intro hcontr
            have : s ≤ p := by simpa using hcontr
            omega
          · simp only [borderScan, if_neg hb]
            exact ih ss (fun i hi => by
              have := hin (i + 1) (by simpa using hi)
              simpa using this)

/-- If every axis is in bounds and some axis lies within 1 of the boundary,
the border scan reports the unrefined early return. -/
lemma borderScan_trigger (pos sizes : List Nat)
    (hlen : pos.length = sizes.length)
    (hin : ∀ i, i < sizes.length → pos.getD i 0 < sizes.getD i 0)
    (htrig : ∃ i, i < sizes.length ∧
      (pos.getD i 0 < 1 ∨ sizes.getD i 0 - 1 ≤ pos.getD i 0)) :
    borderScan pos sizes = some false := by
  induction pos generalizing sizes with
  | nil =>
      obtain ⟨i, hi, hcase⟩ := htrig
      cases sizes with
      | nil => simp at hi
      | cons s ss => simp at hlen
  | cons p ps ih =>
      cases sizes with
      | nil =>
          obtain ⟨i, hi, _⟩ := htrig
          simp at hi
      | cons s ss =>
          have h0 : p < s := by
            have := hin 0 (by simp)
            simpa using this
          by_cases hb : p < 1 ∨ s - 1 ≤ p
          · simp only [borderScan, if_pos hb]
            congr 1
            simpa using Nat.not_le.mpr h0
          · simp only [borderScan, if_neg hb]
            refine ih ss (by simpa using hlen) (fun i hi => by
              have := hin (i + 1) (by simpa using hi)
              simpa using this) ?_
            obtain ⟨i, hi, hcase⟩ := htrig
            cases i with
            | zero => exact absurd (by simpa using hcase) hb
            | succ j =>
                exact ⟨j, by simpa using hi, by simpa using hcase⟩

/-- If every axis is strictly interior, the border scan does not trigger. -/
lemma borderScan_none (pos sizes : List Nat)
    (h : ∀ i, i < sizes.length →
      1 ≤ pos.getD i 0 ∧ pos.getD i 0 < sizes.getD i 0 - 1) :
    borderScan pos sizes = none := by
  induction pos generalizing sizes with
  | nil => cases sizes with
      | nil => rfl
      | cons s ss =>
          exfalso
          have := h 0 (by simp)
          have hz : ([] : List Nat).getD 0 0 = 0 := rfl
          rw [hz] at this
          omega
  | cons p ps ih =>
      cases sizes with
      | nil => rfl
      | cons s ss =>
          have h0 := h 0 (by simp)
          simp only [List.getD_cons_zero] at h0
          have hb : ¬ (p < 1 ∨ s - 1 ≤ p) := by omega
          simp only [borderScan, if_neg hb]
          exact ih ss (fun i hi => by
            have := h (i + 1) (by simpa using hi)
            simpa using this)

/-- C1: for a populated scalar real grid and an in-bounds candidate within 1
sample of some grid boundary, `SubpixelLocation` returns the candidate's
integer coordinates and the raw sample there, for every polarity and method
string. -/
theorem C1_border_unrefined (rlog rexp : ℚ → ℚ) (img : Img) (pos : List Nat)
    (polarity s_method : String)
    (hf : img.forged = true) (hs : img.scalar = true) (hr : img.dtypeReal = true)
    (hlen : pos.length = img.sizes.length)
    (hin : ∀ i, i < img.sizes.length → pos.getD i 0 < img.sizes.getD i 0)
    (htrig : ∃ i, i < img.sizes.length ∧
      (pos.getD i 0 < 1 ∨ img.sizes.getD i 0 - 1 ≤ pos.getD i 0)) :
    SubpixelLocation rlog rexp img pos polarity s_method =
      .ok ⟨pos.map (fun n => (n : ℚ)), img.data pos⟩ := by
  have hnd : 1 ≤ img.sizes.length := by
    obtain ⟨i, hi, _⟩ := htrig
    omega
  have hscan := borderScan_trigger pos img.sizes hlen hin htrig
  simp only [SubpixelLocation, hf, hs, hr, hlen, hscan]
  simp [Nat.lt_irrefl, Nat.not_lt.mpr hnd]

/-- Concrete 1D image: sizes `[3]`, sample value = the coordinate. -/
def cImg1 : Img :=
  ⟨true, true, true, [3], 1, fun p => (p.getD 0 0 : ℚ)⟩

/-- Witness for C1: the boundary candidate `[0]` of a 1D grid of size 3 is
returned unrefined. -/
theorem C1_border_unrefined_witness :
    SubpixelLocation id id cImg1 [0] Smaximum Slinear = .ok ⟨[(0 : ℚ)], 0⟩ := by
  have h := C1_border_unrefined id id cImg1 [0] Smaximum Slinear rfl rfl rfl rfl
    (by intro i hi
        have : i = 0 := by simpa [cImg1] using hi
        subst this
        simp [cImg1])
    ⟨0, by simp [cImg1]⟩
  simpa [cImg1] using h

/-- C7: for 1-dimensional grids `ParseMethod` normalizes the joint methods to
the separable ones, so the public results coincide for every candidate and
polarity. -/
theorem C7_joint_collapses_1d (rlog rexp : ℚ → ℚ) (img : Img) (pos : List Nat)
    (polarity : String) (h1 : img.sizes.length = 1) :
    SubpixelLocation rlog rexp img pos polarity Sparabolic =
      SubpixelLocation rlog rexp img pos polarity SparabolicSeparable ∧
    SubpixelLocation rlog rexp img pos polarity Sgaussian =
      SubpixelLocation rlog rexp img pos polarity SgaussianSeparable := by
  have hp : ParseMethod Sparabolic 1 = ParseMethod SparabolicSeparable 1 := rfl
  have hg : ParseMethod Sgaussian 1 = ParseMethod SgaussianSeparable 1 := rfl
  refine ⟨?_, ?_⟩
  · simp only [SubpixelLocation, h1, hp]
  · simp only [SubpixelLocation, h1, hg]

/-- Witness for C7 on a concrete 1D grid and interior candidate. -/
theorem C7_joint_collapses_1d_witness :
    SubpixelLocation id id cImg1 [1] Smaximum Sparabolic =
      SubpixelLocation id id cImg1 [1] Smaximum SparabolicSeparable ∧
    SubpixelLocation id id cImg1 [1] Smaximum Sgaussian =
      SubpixelLocation id id cImg1 [1] Smaximum SgaussianSeparable :=
  C7_joint_collapses_1d id id cImg1 [1] Smaximum rfl

/-! ### Method parsing lemmas -/

lemma ParseMethod_unknown (s : String) (nd : Nat)
    (h1 : s ≠ Slinear) (h2 : s ≠ Sparabolic) (h3 : s ≠ SparabolicSeparable)
    (h4 : s ≠ Sgaussian) (h5 : s ≠ SgaussianSeparable) (h6 : s ≠ Sinteger) :
    ParseMethod s nd = .error .INVALID_FLAG := by
  simp [ParseMethod, h1, h2, h3, h4, h5, h6]

lemma ParseMethod_parabolic_big (nd : Nat) (h : nd ≠ 1) :
    ParseMethod Sparabolic nd = .ok PARABOLIC := by
  simp [ParseMethod, Sparabolic, Slinear, h]

lemma ParseMethod_gaussian_big (nd : Nat) (h : nd ≠ 1) :
    ParseMethod Sgaussian nd = .ok GAUSSIAN := by
  simp [ParseMethod, Sgaussian, Slinear, Sparabolic, SparabolicSeparable, h]

/-- The joint branch throws `ILLEGAL_DIMENSIONALITY` for dimensionality
outside `{2, 3}`. -/
lemma jointResult_dim_err (rlog rexp : ℚ → ℚ) (img : Img) (pos : List Nat)
    (gauss invert : Bool) (h : img.sizes.length = 0 ∨ 4 ≤ img.sizes.length) :
    jointResult rlog rexp img pos gauss invert = .error .ILLEGAL_DIMENSIONALITY := by
  rcases h with h | h
  · unfold jointResult
    rw [h]
  · obtain ⟨n, hn⟩ : ∃ n, img.sizes.length = n + 4 := ⟨img.sizes.length - 4, by omega⟩
    unfold jointResult
    rw [hn]
    rfl

lemma parse_then_internal_err (rlog rexp : ℚ → ℚ) (img : Img) (pos : List Nat)
    (s_method : String) (invert : Bool)
    (hbad : (s_method ≠ Slinear ∧ s_method ≠ Sparabolic ∧ s_method ≠ SparabolicSeparable ∧
             s_method ≠ Sgaussian ∧ s_method ≠ SgaussianSeparable ∧ s_method ≠ Sinteger) ∨
      ((s_method = Sparabolic ∨ s_method = Sgaussian) ∧
        (img.sizes.length = 0 ∨ 4 ≤ img.sizes.length))) :
    ∃ e, (match ParseMethod s_method img.sizes.length with
          | .error e => (.error e : Except DipError SubpixelLocationResult)
          | .ok method => SubpixelLocationInternal rlog rexp img pos method invert) =
      .error e := by
  rcases hbad with ⟨h1, h2, h3, h4, h5, h6⟩ | ⟨hjm, hjd⟩
  · exact ⟨.INVALID_FLAG, by rw [ParseMethod_unknown s_method _ h1 h2 h3 h4 h5 h6]⟩
  · refine ⟨.ILLEGAL_DIMENSIONALITY, ?_⟩
    have hne1 : img.sizes.length ≠ 1 := by omega
    rcases hjm with hjm | hjm <;> subst hjm
    · rw [ParseMethod_parabolic_big _ hne1]
      simpa [SubpixelLocationInternal] using
        jointResult_dim_err rlog rexp img pos false invert hjd
    · rw [ParseMethod_gaussian_big _ hne1]
      simpa [SubpixelLocationInternal] using
        jointResult_dim_err rlog rexp img pos true invert hjd

/-- After the precondition checks pass and no axis is near the border, the
public function is polarity parsing, method parsing, then the internal
dispatch. -/
lemma SubpixelLocation_core (rlog rexp : ℚ → ℚ) (img : Img) (pos : List Nat)
    (polarity s_method : String)
    (hf : img.forged = true) (hs : img.scalar = true) (hr : img.dtypeReal = true)
    (hlen : pos.length = img.sizes.length) (hnd : 1 ≤ img.sizes.length)
    (hscan : borderScan pos img.sizes = none) :
    SubpixelLocation rlog rexp img pos polarity s_method =
      (match BooleanFromString polarity Sminimum Smaximum with
       | .error e => .error e
       | .ok invert =>
           match ParseMethod s_method img.sizes.length with
           | .error e => .error e
           | .ok method => SubpixelLocationInternal rlog rexp img pos method invert) := by
  simp only [SubpixelLocation, hf, hs, hr, hlen, hscan]
  simp [Nat.not_lt.mpr hnd]

/-- C6 (amended): for a populated scalar real grid and an in-bounds NON-BORDER
candidate, an unrecognized method name — or a joint Parabolic/Gaussian method
on dimensionality outside {1,2,3} — makes `SubpixelLocation` fail with an
error. (As literally stated the claim is false: an in-bounds candidate on the
border returns unrefined before the method string is ever parsed; see the
counterexample.) -/
theorem C6_amended_invalid_config (rlog rexp : ℚ → ℚ) (img : Img) (pos : List Nat)
    (polarity s_method : String)
    (hf : img.forged = true) (hs : img.scalar = true) (hr : img.dtypeReal = true)
    (hlen : pos.length = img.sizes.length)
    (hnb : ∀ i, i < img.sizes.length →
      1 ≤ pos.getD i 0 ∧ pos.getD i 0 < img.sizes.getD i 0 - 1)
    (hbad : (s_method ≠ Slinear ∧ s_method ≠ Sparabolic ∧ s_method ≠ SparabolicSeparable ∧
             s_method ≠ Sgaussian ∧ s_method ≠ SgaussianSeparable ∧ s_method ≠ Sinteger) ∨
      ((s_method = Sparabolic ∨ s_method = Sgaussian) ∧
        (img.sizes.length = 0 ∨ 4 ≤ img.sizes.length))) :
    ∃ e, SubpixelLocation rlog rexp img pos polarity s_method = .error e := by
  by_cases hnd0 : img.sizes.length < 1
  · exact ⟨.DIMENSIONALITY_NOT_SUPPORTED, by simp [SubpixelLocation, hf, hs, hr, hnd0]⟩
  have hscan := borderScan_none pos img.sizes hnb
  rw [SubpixelLocation_core rlog rexp img pos polarity s_method hf hs hr hlen
    (by omega) hscan]
  by_cases hp1 : polarity = Sminimum
  · obtain ⟨e, he⟩ := parse_then_internal_err rlog rexp img pos s_method true hbad
    exact ⟨e, by simp only [BooleanFromString, hp1, if_pos rfl]; exact he⟩
  · by_cases hp2 : polarity = Smaximum
    · obtain ⟨e, he⟩ := parse_then_internal_err rlog rexp img pos s_method false hbad
      refine ⟨e, ?_⟩
      have hne : ¬ (polarity = Sminimum) := hp1
      simp only [BooleanFromString, if_neg hne, hp2, if_pos rfl]
      exact he
    · exact ⟨.INVALID_FLAG, by simp [BooleanFromString, hp1, hp2]⟩

/-- Counterexample to C6 as stated: the candidate `[0]` of a 1D size-3 grid is
in bounds, the method name `"bogus"` is not among the six recognized names,
yet `SubpixelLocation` raises no error — it returns the unrefined border
result (the border early-return precedes method parsing). -/
theorem C6_counterexample :
    ("bogus" ≠ Slinear ∧ "bogus" ≠ Sparabolic ∧ "bogus" ≠ SparabolicSeparable ∧
     "bogus" ≠ Sgaussian ∧ "bogus" ≠ SgaussianSeparable ∧ "bogus" ≠ Sinteger) ∧
    [0].getD 0 0 < cImg1.sizes.getD 0 0 ∧
    SubpixelLocation id id cImg1 [0] Smaximum "bogus" = .ok ⟨[(0 : ℚ)], 0⟩ := by
  refine ⟨by decide, by decide, ?_⟩
  rfl

/-- Witness for the amended C6: an interior candidate with an unknown method
name produces an error. -/
theorem C6_amended_invalid_config_witness :
    ∃ e, SubpixelLocation id id cImg1 [1] Smaximum "bogus" = .error e :=
  C6_amended_invalid_config id id cImg1 [1] Smaximum "bogus" rfl rfl rfl rfl
    (by
      intro i hi
      have h0 : i = 0 := by simpa [cImg1] using hi
      subst h0
      simp [cImg1])
    (Or.inl (by decide))

/-! ### MeanShift -/

/-- C8: `MeanShift` fails, before any iteration, exactly when the field is
not forged, its tensor-element count differs from its dimensionality, its
samples are non-real, the start coordinate has the wrong length, or
`epsilon ≤ 0`; otherwise it runs the tracking loop. -/
theorem C8_meanshift_preconditions (field : Img) (interp : List ℚ → List ℚ)
    (start : List ℚ) (epsilon : ℚ) (fuel : Nat) :
    ((∃ e, MeanShift field interp start epsilon fuel = .error e) ↔
      (field.forged = false ∨ field.tensorElements ≠ field.sizes.length ∨
       field.dtypeReal = false ∨ start.length ≠ field.sizes.length ∨ epsilon ≤ 0)) ∧
    ((field.forged = true ∧ field.tensorElements = field.sizes.length ∧
      field.dtypeReal = true ∧ start.length = field.sizes.length ∧ 0 < epsilon) →
      MeanShift field interp start epsilon fuel =
        .ok (meanShiftLoop interp (epsilon * epsilon) fuel start)) := by
  unfold MeanShift
  split_ifs with h1 h2 h3 h4 h5 <;>
    simp_all [not_le, le_of_lt, not_lt]

lemma zipWith_add_replicate_zero (l : List ℚ) (n : Nat) (h : l.length = n) :
    List.zipWith (fun a b => a + b) l (List.replicate n (0 : ℚ)) = l := by
  induction l generalizing n with
  | nil => simp
  | cons a as ih =>
      cases n with
      | zero => simp at h
      | succ m =>
          simp only [List.replicate, List.zipWith, add_zero]
          rw [ih m (by simpa using h)]

lemma norm_square_replicate_zero (n : Nat) :
    norm_square (List.replicate n (0 : ℚ)) = 0 := by
  induction n with
  | zero => rfl
  | succ m ih =>
      simp only [norm_square, List.replicate, List.map, List.sum_cons, mul_zero, zero_add]
      exact ih

/-- C9: with a vector field whose interpolation is the zero vector
everywhere, `MeanShift` converges in exactly one interpolation step (fuel 1
suffices) and returns the start coordinate unchanged. -/
theorem C9_zero_field_fixed_point (field : Img) (start : List ℚ) (epsilon : ℚ)
    (hf : field.forged = true) (ht : field.tensorElements = field.sizes.length)
    (hr : field.dtypeReal = true) (hl : start.length = field.sizes.length)
    (he : 0 < epsilon) :
    MeanShift field (fun _ => List.replicate field.sizes.length 0) start epsilon 1 =
      .ok (some start) := by
  unfold MeanShift
  rw [if_neg (by simp [hf]), if_neg (by simp [ht]), if_neg (by simp [hr]),
    if_neg (by simp [hl]), if_neg (not_le.mpr he)]
  unfold meanShiftLoop
  rw [if_pos (by rw [norm_square_replicate_zero]; positivity)]
  rw [zipWith_add_replicate_zero start _ hl]

/-- Concrete vector field for the C9 witness: a forged real 1D field of size
3 with one tensor element. -/
def cField1 : Img :=
  ⟨true, false, true, [3], 1, fun _ => 0⟩

/-- Witness for C9 at a concrete field, start coordinate and epsilon. -/
theorem C9_zero_field_fixed_point_witness :
    MeanShift cField1 (fun _ => List.replicate cField1.sizes.length 0) [1/2] 1 1 =
      .ok (some [1/2]) :=
  C9_zero_field_fixed_point cField1 [1/2] 1 rfl rfl rfl rfl (by norm_num)

/-! ### C4: exact recovery of a sampled paraboloid by the joint 2D fit -/

/-- The synthetic paraboloid of the source's test case:
`f(x,y) = v - ((x-cx)^2 + (y-cy)^2)`. -/
def p2fun (cx cy v x y : ℚ) : ℚ :=
  v - ((x - cx) * (x - cx) + (y - cy) * (y - cy))

/-- The paraboloid sampled on the 3×3 stencil in stencil order. -/
def paraStencil (cx cy v : ℚ) : List ℚ :=
  [ p2fun cx cy v (-1) (-1), p2fun cx cy v 0 (-1), p2fun cx cy v 1 (-1),
    p2fun cx cy v (-1) 0,    p2fun cx cy v 0 0,    p2fun cx cy v 1 0,
    p2fun cx cy v (-1) 1,    p2fun cx cy v 0 1,    p2fun cx cy v 1 1 ]

lemma acoef2_para0 (cx cy v : ℚ) :
    acoef2 (paraStencil cx cy v) 0 = v - cx * cx - cy * cy := by
  simp [acoef2, lincomb, w2, paraStencil, p2fun]
  ring

lemma acoef2_para1 (cx cy v : ℚ) : acoef2 (paraStencil cx cy v) 1 = 2 * cx := by
  simp [acoef2, lincomb, w2, paraStencil, p2fun]
  ring

lemma acoef2_para2 (cx cy v : ℚ) : acoef2 (paraStencil cx cy v) 2 = 2 * cy := by
  simp [acoef2, lincomb, w2, paraStencil, p2fun]
  ring

lemma acoef2_para3 (cx cy v : ℚ) : acoef2 (paraStencil cx cy v) 3 = -1 := by
  simp [acoef2, lincomb, w2, paraStencil, p2fun]
  ring

lemma acoef2_para4 (cx cy v : ℚ) : acoef2 (paraStencil cx cy v) 4 = -1 := by
  simp [acoef2, lincomb, w2, paraStencil, p2fun]
  ring

lemma acoef2_para5 (cx cy v : ℚ) : acoef2 (paraStencil cx cy v) 5 = 0 := by
  simp [acoef2, lincomb, w2, paraStencil, p2fun]
  ring

lemma qdenom_para (cx cy v : ℚ) : qdenom (paraStencil cx cy v) = -4 := by
  rw [qdenom, acoef2_para3, acoef2_para4, acoef2_para5]
  norm_num

lemma qx_para (cx cy v : ℚ) : qx (paraStencil cx cy v) = cx := by
  rw [qx, qdenom_para, acoef2_para4, acoef2_para1, acoef2_para5, acoef2_para2]
  ring

lemma qy_para (cx cy v : ℚ) : qy (paraStencil cx cy v) = cy := by
  rw [qy, qdenom_para, acoef2_para3, acoef2_para2, acoef2_para5, acoef2_para1]
  ring

lemma qval_para (cx cy v : ℚ) : qval (paraStencil cx cy v) = v := by
  rw [qval, acoef2_para0, acoef2_para1, acoef2_para2, acoef2_para3, acoef2_para4,
    acoef2_para5, qx_para, qy_para]
  ring

/-- C4: the joint parabolic fit recovers the center and height of an exactly
sampled paraboloid whenever the center lies within the ±0.75 tolerance. -/
theorem C4_paraboloid_exact_recovery (cx cy v : ℚ)
    (hx1 : -3/4 ≤ cx) (hx2 : cx ≤ 3/4) (hy1 : -3/4 ≤ cy) (hy2 : cy ≤ 3/4) :
    quadratic_fit_3x3 (paraStencil cx cy v) = some (cx, cy, v) := by
  unfold quadratic_fit_3x3
  rw [qdenom_para, qx_para, qy_para, qval_para]
  rw [if_neg (by norm_num), if_neg (by push_neg; exact ⟨hx1, hx2, hy1, hy2⟩)]

/-- Witness for C4 at the concrete center and height of the source's test
(cx = 0.3715, cy = -0.0396, v = 4.0125). -/
theorem C4_paraboloid_exact_recovery_witness :
    quadratic_fit_3x3 (paraStencil (743/2000) (-99/2500) (321/80)) =
      some (743/2000, -99/2500, 321/80) :=
  C4_paraboloid_exact_recovery (743/2000) (-99/2500) (321/80)
    (by norm_num) (by norm_num) (by norm_num) (by norm_num)

/-! ### C10: offset bounds per method -/

lemma cogOffset_abs_le (t0 t1 t2 : ℚ) : |cogOffset t0 t1 t2| ≤ 1 := by
  unfold cogOffset
  set b := min (min t0 t1) t2 with hb
  have hu0 : 0 ≤ t0 - b := by
    have : b ≤ t0 := le_trans (min_le_left _ _) (min_le_left _ _)
    linarith
  have hu1 : 0 ≤ t1 - b := by
    have : b ≤ t1 := le_trans (min_le_left _ _) (min_le_right _ _)
    linarith
  have hu2 : 0 ≤ t2 - b := by
    have : b ≤ t2 := min_le_right _ _
    linarith
  by_cases hm : t0 - b + (t1 - b) + (t2 - b) = 0
  · simp [hm]
  · have hmpos : 0 < t0 - b + (t1 - b) + (t2 - b) := by
      rcases lt_or_eq_of_le (by linarith : (0 : ℚ) ≤ t0 - b + (t1 - b) + (t2 - b)) with h | h
      · exact h
      · exact absurd h.symm hm
    rw [if_neg hm, abs_le]
    constructor
    · rw [le_div_iff₀ hmpos]
      linarith
    · rw [div_le_one hmpos]
      linarith

lemma quadratic_fit_3x3_some_bounds (t : List ℚ) (x y v : ℚ)
    (h : quadratic_fit_3x3 t = some (x, y, v)) :
    -3/4 ≤ x ∧ x ≤ 3/4 ∧ -3/4 ≤ y ∧ y ≤ 3/4 := by
  unfold quadratic_fit_3x3 at h
  split_ifs at h with h1 h2
  push_neg at h2
  obtain ⟨hx1, hx2, hy1, hy2⟩ := h2
  obtain ⟨hx, hy, hv⟩ : qx t = x ∧ qy t = y ∧ qval t = v := by
    simpa using h
  subst hx hy
  exact ⟨hx1, hx2, hy1, hy2⟩

lemma quadratic_fit_3x3x3_some_bounds (t : List ℚ) (x y z v : ℚ)
    (h : quadratic_fit_3x3x3 t = some (x, y, z, v)) :
    -3/4 ≤ x ∧ x ≤ 3/4 ∧ -3/4 ≤ y ∧ y ≤ 3/4 ∧ -3/4 ≤ z ∧ z ≤ 3/4 := by
  unfold quadratic_fit_3x3x3 at h
  rcases hq : q3off t with ⟨a, b, c⟩
  rw [hq] at h
  simp only [] at h
  split_ifs at h with h1
  push_neg at h1
  obtain ⟨hx1, hx2, hy1, hy2, hz1, hz2⟩ := h1
  obtain ⟨hx, hy, hz, hv⟩ : a = x ∧ b = y ∧ c = z ∧ q3val t a b c = v := by
    simpa using h
  subst hx hy hz
  exact ⟨hx1, hx2, hy1, hy2, hz1, hz2⟩

/-- Concrete 1D image witnessing the unbounded separable offset: samples
`0, 1, 2.1`. -/
def cImgSep : Img :=
  ⟨true, true, true, [3], 1, fun p => [(0 : ℚ), 1, 21/10].getD (p.getD 0 0) 0⟩


lemma jointCoords2_bound (pos : List Nat) (tt : List ℚ) (i : Nat)
    (hi : i < (jointCoords2 pos (quadratic_fit_3x3 tt)).length) :
    |(jointCoords2 pos (quadratic_fit_3x3 tt)).getD i 0 - (pos.getD i 0 : ℚ)| ≤ 3/4 := by
  rcases hfit : quadratic_fit_3x3 tt with _ | ⟨x, y, v⟩
  · rw [hfit] at hi
    simp only [jointCoords2, List.length_cons, List.length_nil] at hi
    rcases i with _ | _ | i
    · simp [jointCoords2]
      norm_num
    · simp [jointCoords2]
      norm_num
    · omega
  · obtain ⟨hx1, hx2, hy1, hy2⟩ := quadratic_fit_3x3_some_bounds tt x y v hfit
    rw [hfit] at hi
    simp only [jointCoords2, List.length_cons, List.length_nil] at hi
    rcases i with _ | _ | i
    · simp only [jointCoords2, List.getD_cons_zero, add_sub_cancel_left]
      rw [abs_le]
      constructor <;> linarith
    · simp only [jointCoords2, List.getD_cons_succ, List.getD_cons_zero, add_sub_cancel_left]
      rw [abs_le]
      constructor <;> linarith
    · omega

lemma jointCoords3_bound (pos : List Nat) (tt : List ℚ) (i : Nat)
    (hi : i < (jointCoords3 pos (quadratic_fit_3x3x3 tt)).length) :
    |(jointCoords3 pos (quadratic_fit_3x3x3 tt)).getD i 0 - (pos.getD i 0 : ℚ)| ≤ 3/4 := by
  rcases hfit : quadratic_fit_3x3x3 tt with _ | ⟨x, y, z, v⟩
  · rw [hfit] at hi
    simp only [jointCoords3, List.length_cons, List.length_nil] at hi
    rcases i with _ | _ | _ | i
    · simp [jointCoords3]
      norm_num
    · simp [jointCoords3]
      norm_num
    · simp [jointCoords3]
      norm_num
    · omega
  · obtain ⟨hx1, hx2, hy1, hy2, hz1, hz2⟩ := quadratic_fit_3x3x3_some_bounds tt x y z v hfit
    rw [hfit] at hi
    simp only [jointCoords3, List.length_cons, List.length_nil] at hi
    rcases i with _ | _ | _ | i
    · simp only [jointCoords3, List.getD_cons_zero, add_sub_cancel_left]
      rw [abs_le]
      constructor <;> linarith
    · simp only [jointCoords3, List.getD_cons_succ, List.getD_cons_zero, add_sub_cancel_left]
      rw [abs_le]
      constructor <;> linarith
    · simp only [jointCoords3, List.getD_cons_succ, List.getD_cons_zero, add_sub_cancel_left]
      rw [abs_le]
      constructor <;> linarith
    · omega

lemma jointResult_coord_bound (rlog rexp : ℚ → ℚ) (img : Img) (pos : List Nat)
    (gauss invert : Bool) (r : SubpixelLocationResult)
    (hok : jointResult rlog rexp img pos gauss invert = .ok r) (i : Nat)
    (hi : i < r.coordinates.length) :
    |r.coordinates.getD i 0 - (pos.getD i 0 : ℚ)| ≤ 3/4 := by
  unfold jointResult at hok
  split at hok
  · simp only [Except.ok.injEq] at hok
    subst hok
    exact jointCoords2_bound pos _ i hi
  · simp only [Except.ok.injEq] at hok
    subst hok
    exact jointCoords3_bound pos _ i hi
  · exact Except.noConfusion hok

/-- C10: per-axis offset bounds. A Linear (center-of-gravity) result never
moves more than 1 from the integer candidate along any axis; a joint
Parabolic/Gaussian result never moves more than 0.75 along any axis (the
tolerance check); and no such bound holds for the separable fits — on the
samples `0, 1, 2.1` the separable parabolic offset is `-10.5`. -/
theorem C10_offset_bounds :
    (∀ (rlog rexp : ℚ → ℚ) (img : Img) (pos : List Nat) (invert : Bool)
        (r : SubpixelLocationResult) (i : Nat),
      SubpixelLocationInternal rlog rexp img pos LINEAR invert = .ok r →
      i < r.coordinates.length →
      |r.coordinates.getD i 0 - (pos.getD i 0 : ℚ)| ≤ 1) ∧
    (∀ (rlog rexp : ℚ → ℚ) (img : Img) (pos : List Nat)
        (method : SubpixelExtremumMethod) (invert : Bool)
        (r : SubpixelLocationResult) (i : Nat),
      (method = PARABOLIC ∨ method = GAUSSIAN) →
      SubpixelLocationInternal rlog rexp img pos method invert = .ok r →
      i < r.coordinates.length →
      |r.coordinates.getD i 0 - (pos.getD i 0 : ℚ)| ≤ 3/4) ∧
    (∃ r, SubpixelLocationInternal id id cImgSep [1] PARABOLIC_SEPARABLE false = .ok r ∧
      1 < |r.coordinates.getD 0 0 - (([1] : List Nat).getD 0 0 : ℚ)|) := by
  refine ⟨?_, ?_, ?_⟩
  · intro rlog rexp img pos invert r i hok hi
    simp only [SubpixelLocationInternal, Except.ok.injEq] at hok
    subst hok
    simp only [] at hi ⊢
    rw [List.getD_eq_getElem _ _ hi]
    have hi' : i < img.sizes.length := by simpa using hi
    simp only [List.getElem_map, List.getElem_range]
    unfold linearCoord
    rcases linT img pos invert i with ⟨t0, t1, t2⟩
    simpa using cogOffset_abs_le t0 t1 t2
  · intro rlog rexp img pos method invert r i hm hok hi
    rcases hm with hm | hm <;> subst hm
    · exact jointResult_coord_bound rlog rexp img pos false invert r hok i hi
    · exact jointResult_coord_bound rlog rexp img pos true invert r hok i hi
  · refine ⟨⟨[-19/2], 1⟩, ?_, by norm_num [abs_of_nonneg]⟩
    have hc : sepCoord id false cImgSep [1] 0 = -19/2 := by
      norm_num [sepCoord, sepT, cImgSep, nbr, offAt, show ((2 : Int)).toNat = 2 from rfl]
    have hv : sepValue id id false false cImgSep [1] 1 = 1 := by
      norm_num [sepValue, clampFold, sepVal, sepT, cImgSep, nbr, offAt,
        show ((2 : Int)).toNat = 2 from rfl, List.range_succ, sup_eq_left]
    simp only [SubpixelLocationInternal, show cImgSep.sizes.length = 1 from rfl,
      List.range_succ, List.range_zero, List.map_cons, List.map_nil, List.nil_append,
      hc, hv]

/-! ### C2: the reported value is never less extreme than the center sample -/

lemma clampFold_ge (center : ℚ) (l : List (Option ℚ)) :
    center ≤ clampFold false center l := by
  suffices h : ∀ acc : ℚ, center ≤ acc → center ≤ clampFold false acc l by
    exact h center le_rfl
  induction l with
  | nil => exact fun acc h => h
  | cons a as ih =>
      intro acc hacc
      rcases a with _ | b
      · exact ih acc hacc
      · exact ih (max acc b) (le_trans hacc (le_max_left _ _))

lemma clampFold_le (center : ℚ) (l : List (Option ℚ)) :
    clampFold true center l ≤ center := by
  suffices h : ∀ acc : ℚ, acc ≤ center → clampFold true acc l ≤ center by
    exact h center le_rfl
  induction l with
  | nil => exact fun acc h => h
  | cons a as ih =>
      intro acc hacc
      rcases a with _ | b
      · exact ih acc hacc
      · exact ih (min acc b) (le_trans (min_le_left _ _) hacc)

/-- The internal dispatcher clamps the value against the raw center sample in
the direction of the active polarity, for every method. -/
lemma internal_value_clamp (rlog rexp : ℚ → ℚ) (img : Img) (pos : List Nat)
    (method : SubpixelExtremumMethod) (invert : Bool) (r : SubpixelLocationResult)
    (hok : SubpixelLocationInternal rlog rexp img pos method invert = .ok r) :
    (invert = false → img.data pos ≤ r.value) ∧
    (invert = true → r.value ≤ img.data pos) := by
  cases method
  case LINEAR =>
    simp only [SubpixelLocationInternal, Except.ok.injEq] at hok
    subst hok
    exact ⟨fun _ => le_rfl, fun _ => le_rfl⟩
  case INTEGER =>
    simp only [SubpixelLocationInternal, Except.ok.injEq] at hok
    subst hok
    exact ⟨fun _ => le_rfl, fun _ => le_rfl⟩
  case PARABOLIC_SEPARABLE =>
    simp only [SubpixelLocationInternal, Except.ok.injEq] at hok
    subst hok
    cases invert
    · exact ⟨fun _ => clampFold_ge _ _, fun h => by simp at h⟩
    · exact ⟨fun h => by simp at h, fun _ => clampFold_le _ _⟩
  case GAUSSIAN_SEPARABLE =>
    simp only [SubpixelLocationInternal, Except.ok.injEq] at hok
    subst hok
    cases invert
    · exact ⟨fun _ => clampFold_ge _ _, fun h => by simp at h⟩
    · exact ⟨fun h => by simp at h, fun _ => clampFold_le _ _⟩
  all_goals
    simp only [SubpixelLocationInternal] at hok
    unfold jointResult at hok
    split at hok <;>
      [skip; skip; exact Except.noConfusion hok] <;>
      simp only [Except.ok.injEq] at hok <;>
      subst hok <;>
      cases invert <;>
      exact ⟨fun h => by simp_all [le_max_left], fun h => by simp_all [min_le_left]⟩

lemma BooleanFromString_ok (s tName fName : String) (b : Bool)
    (h : BooleanFromString s tName fName = .ok b) :
    (s = tName ∧ b = true) ∨ (s = fName ∧ b = false) := by
  unfold BooleanFromString at h
  split_ifs at h with h1 h2
  · exact Or.inl ⟨h1, by simpa using h.symm⟩
  · exact Or.inr ⟨h2, by simpa using h.symm⟩

/-- C2: whenever `SubpixelLocation` returns a result, its value is never less
extreme, for the active polarity, than the raw sample at the candidate's
integer coordinate: at least it for Maximum, at most it for Minimum. -/
theorem C2_value_never_less_extreme (rlog rexp : ℚ → ℚ) (img : Img) (pos : List Nat)
    (polarity s_method : String) (r : SubpixelLocationResult)
    (hok : SubpixelLocation rlog rexp img pos polarity s_method = .ok r) :
    (polarity = Smaximum → img.data pos ≤ r.value) ∧
    (polarity = Sminimum → r.value ≤ img.data pos) := by
  unfold SubpixelLocation at hok
  split_ifs at hok
  split at hok
  · exact Except.noConfusion hok
  · simp only [Except.ok.injEq] at hok
    subst hok
    exact ⟨fun _ => le_rfl, fun _ => le_rfl⟩
  · split at hok
    · exact Except.noConfusion hok
    · rename_i invert hpol
      split at hok
      · exact Except.noConfusion hok
      · rename_i method hmeth
        have hclamp := internal_value_clamp rlog rexp img pos method invert r hok
        rcases BooleanFromString_ok polarity Sminimum Smaximum invert hpol with
          ⟨hpeq, hb⟩ | ⟨hpeq, hb⟩
        · subst hb hpeq
          refine ⟨fun hcon => ?_, fun _ => hclamp.2 rfl⟩
          exact absurd hcon (by decide)
        · subst hb hpeq
          refine ⟨fun _ => hclamp.1 rfl, fun hcon => ?_⟩
          exact absurd hcon (by decide)

/-- Witness for C2 at a concrete grid, candidate, polarity and method. -/
theorem C2_value_never_less_extreme_witness :
    (Smaximum = Smaximum → cImg1.data [1] ≤ (⟨[(1 : ℚ)], 1⟩ : SubpixelLocationResult).value) ∧
    (Smaximum = Sminimum → (⟨[(1 : ℚ)], 1⟩ : SubpixelLocationResult).value ≤ cImg1.data [1]) :=
  C2_value_never_less_extreme id id cImg1 [1] Smaximum Sinteger ⟨[(1 : ℚ)], 1⟩ rfl

/-! ### C3: silent rejection of degenerate joint fits -/

lemma jointResult_fail_unrefined (rlog rexp : ℚ → ℚ) (img : Img) (pos : List Nat)
    (gauss invert : Bool)
    (hfail : (img.sizes.length = 2 ∧
        quadratic_fit_3x3 (jointStencil2 rlog img pos gauss) = none) ∨
      (img.sizes.length = 3 ∧
        quadratic_fit_3x3x3 (jointStencil3 rlog img pos gauss) = none)) :
    jointResult rlog rexp img pos gauss invert =
      .ok ⟨(List.range img.sizes.length).map (fun i => (pos.getD i 0 : ℚ)),
           if invert then min (img.data pos) 0 else max (img.data pos) 0⟩ := by
  rcases hfail with ⟨h2, hfit⟩ | ⟨h3, hfit⟩
  · unfold jointResult
    rw [h2, hfit]
    simp [jointCoords2, jointVal2, List.range_succ]
  · unfold jointResult
    rw [h3, hfit]
    simp [jointCoords3, jointVal3, List.range_succ]

/-- Running the public function with the checks passed, the border scan clear,
and both strings parsed is exactly the internal dispatch. -/
lemma SubpixelLocation_run (rlog rexp : ℚ → ℚ) (img : Img) (pos : List Nat)
    (polarity s_method : String)
    (hf : img.forged = true) (hs : img.scalar = true) (hr : img.dtypeReal = true)
    (hlen : pos.length = img.sizes.length) (hnd : 1 ≤ img.sizes.length)
    (hscan : borderScan pos img.sizes = none) (invert : Bool)
    (method : SubpixelExtremumMethod)
    (hpol : BooleanFromString polarity Sminimum Smaximum = .ok invert)
    (hmeth : ParseMethod s_method img.sizes.length = .ok method) :
    SubpixelLocation rlog rexp img pos polarity s_method =
      SubpixelLocationInternal rlog rexp img pos method invert := by
  rw [SubpixelLocation_core rlog rexp img pos polarity s_method hf hs hr hlen hnd hscan,
    hpol, hmeth]

/-- C3 (amended): when the joint 2D/3D fit is rejected (singular system or
out-of-tolerance offset, i.e. the fit returns `none`), `SubpixelLocation`
raises no error and returns coordinates equal to the candidate's integer
coordinate — but the returned value is the raw center sample clamped against
the fit's zero-initialized `val` (`max` with 0 for Maximum, `min` with 0 for
Minimum), which equals the raw sample exactly when that sample is ≥ 0
(Maximum) resp. ≤ 0 (Minimum). -/
theorem C3_amended_fit_rejection (rlog rexp : ℚ → ℚ) (img : Img) (pos : List Nat)
    (polarity s_method : String)
    (hf : img.forged = true) (hs : img.scalar = true) (hr : img.dtypeReal = true)
    (hlen : pos.length = img.sizes.length)
    (hnb : ∀ i, i < img.sizes.length →
      1 ≤ pos.getD i 0 ∧ pos.getD i 0 < img.sizes.getD i 0 - 1)
    (hpol : polarity = Sminimum ∨ polarity = Smaximum)
    (hm : s_method = Sparabolic ∨ s_method = Sgaussian)
    (hfail : (img.sizes.length = 2 ∧
        quadratic_fit_3x3
          (jointStencil2 rlog img pos (decide (s_method = Sgaussian))) = none) ∨
      (img.sizes.length = 3 ∧
        quadratic_fit_3x3x3
          (jointStencil3 rlog img pos (decide (s_method = Sgaussian))) = none)) :
    SubpixelLocation rlog rexp img pos polarity s_method =
      .ok ⟨(List.range img.sizes.length).map (fun i => (pos.getD i 0 : ℚ)),
           if polarity = Sminimum then min (img.data pos) 0
           else max (img.data pos) 0⟩ := by
  have hnd : 1 ≤ img.sizes.length := by rcases hfail with ⟨h, _⟩ | ⟨h, _⟩ <;> omega
  have hne1 : img.sizes.length ≠ 1 := by rcases hfail with ⟨h, _⟩ | ⟨h, _⟩ <;> omega
  have hscan := borderScan_none pos img.sizes hnb
  rcases hpol with rfl | rfl <;> rcases hm with rfl | rfl
  · rw [SubpixelLocation_run rlog rexp img pos Sminimum Sparabolic hf hs hr hlen hnd
      hscan true PARABOLIC rfl (ParseMethod_parabolic_big _ hne1)]
    rw [show (decide (Sparabolic = Sgaussian)) = false from rfl] at hfail
    simp only [SubpixelLocationInternal]
    rw [jointResult_fail_unrefined rlog rexp img pos false true hfail]
    simp
  · rw [SubpixelLocation_run rlog rexp img pos Sminimum Sgaussian hf hs hr hlen hnd
      hscan true GAUSSIAN rfl (ParseMethod_gaussian_big _ hne1)]
    rw [show (decide (Sgaussian = Sgaussian)) = true from rfl] at hfail
    simp only [SubpixelLocationInternal]
    rw [jointResult_fail_unrefined rlog rexp img pos true true hfail]
    simp
  · rw [SubpixelLocation_run rlog rexp img pos Smaximum Sparabolic hf hs hr hlen hnd
      hscan false PARABOLIC rfl (ParseMethod_parabolic_big _ hne1)]
    rw [show (decide (Sparabolic = Sgaussian)) = false from rfl] at hfail
    simp only [SubpixelLocationInternal]
    rw [jointResult_fail_unrefined rlog rexp img pos false false hfail]
    have : ¬ (Smaximum = Sminimum) := by decide
    simp [this]
  · rw [SubpixelLocation_run rlog rexp img pos Smaximum Sgaussian hf hs hr hlen hnd
      hscan false GAUSSIAN rfl (ParseMethod_gaussian_big _ hne1)]
    rw [show (decide (Sgaussian = Sgaussian)) = true from rfl] at hfail
    simp only [SubpixelLocationInternal]
    rw [jointResult_fail_unrefined rlog rexp img pos true false hfail]
    have : ¬ (Smaximum = Sminimum) := by decide
    simp [this]

/-- Concrete 2D image with all samples equal to `-1` (the joint fit is
singular there). -/
def cImgNeg : Img :=
  ⟨true, true, true, [3, 3], 1, fun _ => -1⟩

lemma quadratic_fit_const_neg1 :
    quadratic_fit_3x3 (jointStencil2 id cImgNeg [1, 1] false) = none := by
  have h : jointStencil2 id cImgNeg [1, 1] false =
      [-1, -1, -1, -1, -1, -1, -1, -1, -1] := by
    norm_num [jointStencil2, stencil2, cImgNeg]
  rw [h]
  have hden : qdenom [-1, -1, -1, -1, -1, -1, -1, -1, -1] = 0 := by
    norm_num [qdenom, acoef2, lincomb, w2]
  unfold quadratic_fit_3x3
  rw [hden]
  simp

/-- Counterexample to C3 as stated: on the all-(-1) image the singular joint
parabolic fit is rejected, no error is raised and the coordinates are
unrefined — but the returned value is `0`, not the raw sample `-1` at the
candidate. -/
theorem C3_counterexample :
    SubpixelLocation id id cImgNeg [1, 1] Smaximum Sparabolic =
      .ok ⟨[(1 : ℚ), 1], 0⟩ ∧
    cImgNeg.data [1, 1] = -1 ∧ (0 : ℚ) ≠ -1 := by
  refine ⟨?_, rfl, by norm_num⟩
  rw [SubpixelLocation_run id id cImgNeg [1, 1] Smaximum Sparabolic rfl rfl rfl rfl
    (by norm_num [cImgNeg]) (by decide) false PARABOLIC rfl
    (ParseMethod_parabolic_big 2 (by omega))]
  simp only [SubpixelLocationInternal]
  rw [jointResult_fail_unrefined id id cImgNeg [1, 1] false false
    (Or.inl ⟨rfl, quadratic_fit_const_neg1⟩)]
  norm_num [cImgNeg, List.range_succ]

/-- Witness for the amended C3 at the same concrete rejected fit. -/
theorem C3_amended_fit_rejection_witness :
    SubpixelLocation id id cImgNeg [1, 1] Smaximum Sparabolic =
      .ok ⟨(List.range cImgNeg.sizes.length).map
             (fun i => ((([1, 1] : List Nat).getD i 0 : ℕ) : ℚ)),
           if Smaximum = Sminimum then min (cImgNeg.data [1, 1]) 0
           else max (cImgNeg.data [1, 1]) 0⟩ :=
  C3_amended_fit_rejection id id cImgNeg [1, 1] Smaximum Sparabolic rfl rfl rfl rfl
    (by
      intro i hi
      have h2 : i < 2 := by simpa [cImgNeg] using hi
      interval_cases i <;> simp [cImgNeg])
    (Or.inr rfl) (Or.inl rfl)
    (Or.inl ⟨rfl, by rw [show (decide (Sparabolic = Sgaussian)) = false from rfl]
                     exact quadratic_fit_const_neg1⟩)

/-! ### C5: Minimum polarity as negate-fit-negate -/

/-- The grid with all samples negated. -/
def negImg (img : Img) : Img :=
  ⟨img.forged, img.scalar, img.dtypeReal, img.sizes, img.tensorElements,
   fun p => -(img.data p)⟩

lemma lincomb_map_neg (w t : List ℚ) :
    lincomb w (t.map (fun q => -q)) = -(lincomb w t) := by
  induction w generalizing t with
  | nil => simp [lincomb]
  | cons a as ih =>
      cases t with
      | nil => simp [lincomb]
      | cons b bs =>
          simp only [List.map_cons, lincomb, List.zipWith_cons_cons, List.sum_cons]
          have := ih bs
          simp only [lincomb] at this
          rw [this]
          ring

lemma acoef2_map_neg (t : List ℚ) (i : Nat) :
    acoef2 (t.map (fun q => -q)) i = -(acoef2 t i) := by
  unfold acoef2
  rw [lincomb_map_neg]
  ring

lemma qdenom_map_neg (t : List ℚ) : qdenom (t.map (fun q => -q)) = qdenom t := by
  unfold qdenom
  rw [acoef2_map_neg, acoef2_map_neg, acoef2_map_neg]
  ring

lemma qx_map_neg (t : List ℚ) : qx (t.map (fun q => -q)) = qx t := by
  unfold qx
  rw [qdenom_map_neg, acoef2_map_neg, acoef2_map_neg, acoef2_map_neg, acoef2_map_neg]
  congr 1
  ring

lemma qy_map_neg (t : List ℚ) : qy (t.map (fun q => -q)) = qy t := by
  unfold qy
  rw [qdenom_map_neg, acoef2_map_neg, acoef2_map_neg, acoef2_map_neg, acoef2_map_neg]
  congr 1
  ring

lemma qval_map_neg (t : List ℚ) : qval (t.map (fun q => -q)) = -(qval t) := by
  unfold qval
  rw [qx_map_neg, qy_map_neg, acoef2_map_neg, acoef2_map_neg, acoef2_map_neg,
    acoef2_map_neg, acoef2_map_neg, acoef2_map_neg]
  ring

lemma quadratic_fit_3x3_map_neg (t : List ℚ) :
    quadratic_fit_3x3 (t.map (fun q => -q)) =
      (quadratic_fit_3x3 t).map (fun s => (s.1, s.2.1, -s.2.2)) := by
  unfold quadratic_fit_3x3
  rw [qdenom_map_neg, qx_map_neg, qy_map_neg, qval_map_neg]
  split_ifs <;> rfl

lemma acoef3_map_neg (t : List ℚ) (i : Nat) :
    acoef3 (t.map (fun q => -q)) i = -(acoef3 t i) := by
  unfold acoef3
  rw [lincomb_map_neg]
  ring

lemma solve3_neg (b0 b1 b2 b3 b4 b5 b6 b7 b8 c0 c1 c2 : ℚ) :
    solve3 (-b0) (-b1) (-b2) (-b3) (-b4) (-b5) (-b6) (-b7) (-b8) (-c0) (-c1) (-c2) =
      solve3 b0 b1 b2 b3 b4 b5 b6 b7 b8 c0 c1 c2 := by
  unfold solve3
  have hd : det3 (-b0) (-b1) (-b2) (-b3) (-b4) (-b5) (-b6) (-b7) (-b8) =
      -(det3 b0 b1 b2 b3 b4 b5 b6 b7 b8) := by
    unfold det3
    ring
  rw [hd]
  by_cases h : det3 b0 b1 b2 b3 b4 b5 b6 b7 b8 = 0
  · rw [if_pos (by rw [h]; ring), if_pos h]
  · rw [if_neg (by intro hc; exact h (by linarith [neg_eq_zero.mp hc])), if_neg h]
    refine Prod.ext ?_ (Prod.ext ?_ ?_) <;> simp only
    · rw [show det3 (-c0) (-b1) (-b2) (-c1) (-b4) (-b5) (-c2) (-b7) (-b8) =
          -(det3 c0 b1 b2 c1 b4 b5 c2 b7 b8) from by unfold det3; ring]
      rw [neg_div_neg_eq]
    · rw [show det3 (-b0) (-c0) (-b2) (-b3) (-c1) (-b5) (-b6) (-c2) (-b8) =
          -(det3 b0 c0 b2 b3 c1 b5 b6 c2 b8) from by unfold det3; ring]
      rw [neg_div_neg_eq]
    · rw [show det3 (-b0) (-b1) (-c0) (-b3) (-b4) (-c1) (-b6) (-b7) (-c2) =
          -(det3 b0 b1 c0 b3 b4 c1 b6 b7 c2) from by unfold det3; ring]
      rw [neg_div_neg_eq]

lemma q3off_map_neg (t : List ℚ) : q3off (t.map (fun q => -q)) = q3off t := by
  unfold q3off
  rw [show (2 : ℚ) * acoef3 (t.map (fun q => -q)) 4 = -(2 * acoef3 t 4) from by
      rw [acoef3_map_neg]; ring,
    show (2 : ℚ) * acoef3 (t.map (fun q => -q)) 5 = -(2 * acoef3 t 5) from by
      rw [acoef3_map_neg]; ring,
    show (2 : ℚ) * acoef3 (t.map (fun q => -q)) 6 = -(2 * acoef3 t 6) from by
      rw [acoef3_map_neg]; ring,
    acoef3_map_neg t 9, acoef3_map_neg t 8, acoef3_map_neg t 7, acoef3_map_neg t 1,
    acoef3_map_neg t 2, acoef3_map_neg t 3]
  rw [show -(-(acoef3 t 1)) = -(-acoef3 t 1) from rfl,
    show -(-(acoef3 t 2)) = -(-acoef3 t 2) from rfl,
    show -(-(acoef3 t 3)) = -(-acoef3 t 3) from rfl]
  exact solve3_neg _ _ _ _ _ _ _ _ _ _ _ _

lemma q3val_map_neg (t : List ℚ) (x y z : ℚ) :
    q3val (t.map (fun q => -q)) x y z = -(q3val t x y z) := by
  unfold q3val
  rw [acoef3_map_neg, acoef3_map_neg, acoef3_map_neg, acoef3_map_neg, acoef3_map_neg,
    acoef3_map_neg, acoef3_map_neg, acoef3_map_neg, acoef3_map_neg, acoef3_map_neg]
  ring

lemma quadratic_fit_3x3x3_map_neg (t : List ℚ) :
    quadratic_fit_3x3x3 (t.map (fun q => -q)) =
      (quadratic_fit_3x3x3 t).map (fun s => (s.1, s.2.1, s.2.2.1, -s.2.2.2)) := by
  unfold quadratic_fit_3x3x3
  rw [q3off_map_neg]
  rcases q3off t with ⟨x, y, z⟩
  simp only
  rw [q3val_map_neg]
  split_ifs <;> rfl

lemma stencil2_negImg (img : Img) (p : List Nat) :
    stencil2 (negImg img) p = (stencil2 img p).map (fun q => -q) := by
  simp [stencil2, negImg]

lemma stencil3_negImg (img : Img) (p : List Nat) :
    stencil3 (negImg img) p = (stencil3 img p).map (fun q => -q) := by
  simp [stencil3, negImg]

lemma getD_map_neg (t : List ℚ) (i : Nat) (hi : i < t.length) :
    (t.map (fun q => -q)).getD i 0 = -(t.getD i 0) := by
  rw [List.getD_eq_getElem _ _ (by simpa using hi), List.getD_eq_getElem _ _ hi]
  simp

lemma log_transform_map_neg (rlog : ℚ → ℚ) (t : List ℚ) (inv : Bool) :
    log_transform rlog (t.map (fun q => -q)) (!inv) = log_transform rlog t inv := by
  unfold log_transform
  rw [List.map_map]
  apply List.map_congr_left
  intro a _
  cases inv <;> simp

/-- With a nonzero stencil center, the Gaussian transform of the negated
stencil equals that of the original stencil (the sign-inversion flag flips
and cancels the negation). -/
lemma jointStencil2_negImg (rlog : ℚ → ℚ) (img : Img) (p : List Nat)
    (hc : (stencil2 img p).getD 4 0 ≠ 0) :
    jointStencil2 rlog (negImg img) p true = jointStencil2 rlog img p true := by
  unfold jointStencil2
  rw [stencil2_negImg]
  simp only [if_true]
  rw [getD_map_neg _ _ (by simp [stencil2])]
  rcases lt_trichotomy ((stencil2 img p).getD 4 0) 0 with h | h | h
  · rw [show decide (-(stencil2 img p).getD 4 0 < 0) = !decide ((stencil2 img p).getD 4 0 < 0)
        from by rw [decide_eq_true h, show decide (-(stencil2 img p).getD 4 0 < 0) = false
          from decide_eq_false (by simpa using asymm h)]; rfl]
    exact log_transform_map_neg rlog _ _
  · exact absurd h hc
  · rw [show decide (-(stencil2 img p).getD 4 0 < 0) = !decide ((stencil2 img p).getD 4 0 < 0)
        from by rw [decide_eq_false (asymm h), show decide (-(stencil2 img p).getD 4 0 < 0) = true
          from decide_eq_true (by simpa using h)]; rfl]
    exact log_transform_map_neg rlog _ _

lemma jointStencil3_negImg (rlog : ℚ → ℚ) (img : Img) (p : List Nat)
    (hc : (stencil3 img p).getD 13 0 ≠ 0) :
    jointStencil3 rlog (negImg img) p true = jointStencil3 rlog img p true := by
  unfold jointStencil3
  rw [stencil3_negImg]
  simp only [if_true]
  rw [getD_map_neg _ _ (by simp [stencil3])]
  rcases lt_trichotomy ((stencil3 img p).getD 13 0) 0 with h | h | h
  · rw [show decide (-(stencil3 img p).getD 13 0 < 0) = !decide ((stencil3 img p).getD 13 0 < 0)
        from by rw [decide_eq_true h, show decide (-(stencil3 img p).getD 13 0 < 0) = false
          from decide_eq_false (by simpa using asymm h)]; rfl]
    exact log_transform_map_neg rlog _ _
  · exact absurd h hc
  · rw [show decide (-(stencil3 img p).getD 13 0 < 0) = !decide ((stencil3 img p).getD 13 0 < 0)
        from by rw [decide_eq_false (asymm h), show decide (-(stencil3 img p).getD 13 0 < 0) = true
          from decide_eq_true (by simpa using h)]; rfl]
    exact log_transform_map_neg rlog _ _

lemma decide_neg_lt_zero (c : ℚ) (hc : c ≠ 0) : decide (-c < 0) = !decide (c < 0) := by
  rcases lt_trichotomy c 0 with h | h | h
  · rw [decide_eq_true h, decide_eq_false (show ¬(-c < 0) from by simpa using asymm h)]
    rfl
  · exact absurd h hc
  · rw [decide_eq_false (asymm h), decide_eq_true (show -c < 0 from by simpa using h)]
    rfl

lemma inverted2_negImg (img : Img) (pos : List Nat)
    (hc : (stencil2 img pos).getD 4 0 ≠ 0) :
    decide ((stencil2 (negImg img) pos).getD 4 0 < 0) =
      !decide ((stencil2 img pos).getD 4 0 < 0) := by
  rw [stencil2_negImg, getD_map_neg _ _ (by simp [stencil2])]
  exact decide_neg_lt_zero _ hc

lemma inverted3_negImg (img : Img) (pos : List Nat)
    (hc : (stencil3 img pos).getD 13 0 ≠ 0) :
    decide ((stencil3 (negImg img) pos).getD 13 0 < 0) =
      !decide ((stencil3 img pos).getD 13 0 < 0) := by
  rw [stencil3_negImg, getD_map_neg _ _ (by simp [stencil3])]
  exact decide_neg_lt_zero _ hc

lemma jointCoords2_negval (pos : List Nat) (fit : Option (ℚ × ℚ × ℚ)) :
    jointCoords2 pos (Option.map (fun s => (s.1, s.2.1, -s.2.2)) fit) =
      jointCoords2 pos fit := by
  rcases fit with _ | ⟨x, y, v⟩ <;> rfl

lemma jointCoords3_negval (pos : List Nat) (fit : Option (ℚ × ℚ × ℚ × ℚ)) :
    jointCoords3 pos (Option.map (fun s => (s.1, s.2.1, s.2.2.1, -s.2.2.2)) fit) =
      jointCoords3 pos fit := by
  rcases fit with _ | ⟨x, y, z, v⟩ <;> rfl

lemma jointVal2_negval (rexp : ℚ → ℚ) (inv : Bool) (fit : Option (ℚ × ℚ × ℚ)) :
    jointVal2 rexp false inv (Option.map (fun s => (s.1, s.2.1, -s.2.2)) fit) =
      -(jointVal2 rexp false inv fit) := by
  rcases fit with _ | ⟨x, y, v⟩ <;> simp [jointVal2]

lemma jointVal3_negval (rexp : ℚ → ℚ) (inv : Bool) (fit : Option (ℚ × ℚ × ℚ × ℚ)) :
    jointVal3 rexp false inv (Option.map (fun s => (s.1, s.2.1, s.2.2.1, -s.2.2.2)) fit) =
      -(jointVal3 rexp false inv fit) := by
  rcases fit with _ | ⟨x, y, z, v⟩ <;> simp [jointVal3]

lemma jointVal2_flip (rexp : ℚ → ℚ) (inv : Bool) (fit : Option (ℚ × ℚ × ℚ)) :
    jointVal2 rexp true (!inv) fit = -(jointVal2 rexp true inv fit) := by
  rcases fit with _ | ⟨x, y, v⟩ <;> cases inv <;> simp [jointVal2, gaussVal]

lemma jointVal3_flip (rexp : ℚ → ℚ) (inv : Bool) (fit : Option (ℚ × ℚ × ℚ × ℚ)) :
    jointVal3 rexp true (!inv) fit = -(jointVal3 rexp true inv fit) := by
  rcases fit with _ | ⟨x, y, z, v⟩ <;> cases inv <;> simp [jointVal3, gaussVal]

lemma jointVal2_false_irrel (rexp : ℚ → ℚ) (inv inv' : Bool) (fit : Option (ℚ × ℚ × ℚ)) :
    jointVal2 rexp false inv fit = jointVal2 rexp false inv' fit := by
  rcases fit with _ | ⟨x, y, v⟩ <;> simp [jointVal2]

lemma jointVal3_false_irrel (rexp : ℚ → ℚ) (inv inv' : Bool) (fit : Option (ℚ × ℚ × ℚ × ℚ)) :
    jointVal3 rexp false inv fit = jointVal3 rexp false inv' fit := by
  rcases fit with _ | ⟨x, y, z, v⟩ <;> simp [jointVal3]

lemma jointResult_not23 (rlog rexp : ℚ → ℚ) (img : Img) (pos : List Nat)
    (gauss invert : Bool) (h2 : img.sizes.length ≠ 2) (h3 : img.sizes.length ≠ 3) :
    jointResult rlog rexp img pos gauss invert = .error .ILLEGAL_DIMENSIONALITY := by
  unfold jointResult
  rcases hn : img.sizes.length with _ | _ | _ | _ | n
  · rfl
  · rfl
  · exact absurd hn h2
  · exact absurd hn h3
  · rfl

/-- Minimum-polarity joint processing equals Maximum-polarity joint processing
of the negated grid with the value negated back (for the Gaussian method the
stencil center must be nonzero so that the sign-inversion flags mirror). -/
lemma jointResult_negImg (rlog rexp : ℚ → ℚ) (img : Img) (pos : List Nat) (gauss : Bool)
    (hc2 : gauss = true → (stencil2 img pos).getD 4 0 ≠ 0)
    (hc3 : gauss = true → (stencil3 img pos).getD 13 0 ≠ 0) :
    jointResult rlog rexp img pos gauss true =
      Except.map (fun r => ⟨r.coordinates, -(r.value)⟩)
        (jointResult rlog rexp (negImg img) pos gauss false) := by
  by_cases h2 : img.sizes.length = 2
  · unfold jointResult
    rw [show (negImg img).sizes = img.sizes from rfl, h2]
    cases gauss
    · have hst : jointStencil2 rlog (negImg img) pos false =
          (jointStencil2 rlog img pos false).map (fun q => -q) := by
        show stencil2 (negImg img) pos = (stencil2 img pos).map (fun q => -q)
        exact stencil2_negImg img pos
      rw [hst, quadratic_fit_3x3_map_neg]
      simp [Except.map, jointCoords2_negval, jointVal2_negval, max_neg_neg, negImg]
      exact congrArg (fun z => img.data pos ⊓ z) (jointVal2_false_irrel rexp _ _ _)
    · rw [jointStencil2_negImg rlog img pos (hc2 rfl), inverted2_negImg img pos (hc2 rfl)]
      simp [Except.map, jointVal2_flip, max_neg_neg, negImg]
  · by_cases h3 : img.sizes.length = 3
    · unfold jointResult
      rw [show (negImg img).sizes = img.sizes from rfl, h3]
      cases gauss
      · have hst : jointStencil3 rlog (negImg img) pos false =
            (jointStencil3 rlog img pos false).map (fun q => -q) := by
          show stencil3 (negImg img) pos = (stencil3 img pos).map (fun q => -q)
          exact stencil3_negImg img pos
        rw [hst, quadratic_fit_3x3x3_map_neg]
        simp [Except.map, jointCoords3_negval, jointVal3_negval, max_neg_neg, negImg]
        exact congrArg (fun z => img.data pos ⊓ z) (jointVal3_false_irrel rexp _ _ _)
      · rw [jointStencil3_negImg rlog img pos (hc3 rfl), inverted3_negImg img pos (hc3 rfl)]
        simp [Except.map, jointVal3_flip, max_neg_neg, negImg]
    · rw [jointResult_not23 rlog rexp img pos gauss true h2 h3,
        jointResult_not23 rlog rexp (negImg img) pos gauss false h2 h3]
      rfl

lemma linT_negImg (img : Img) (pos : List Nat) (i : Nat) :
    linT (negImg img) pos false i = linT img pos true i := rfl

lemma linearCoord_negImg (img : Img) (pos : List Nat) (i : Nat) :
    linearCoord (negImg img) pos false i = linearCoord img pos true i := by
  unfold linearCoord
  rw [linT_negImg]

lemma sepT_false_negImg (rlog : ℚ → ℚ) (img : Img) (pos : List Nat) (i : Nat) :
    sepT rlog false (negImg img) pos i =
      (-(sepT rlog false img pos i).1, -(sepT rlog false img pos i).2.1,
       -(sepT rlog false img pos i).2.2) := rfl

lemma sepT_true_negImg (rlog : ℚ → ℚ) (img : Img) (pos : List Nat) (i : Nat)
    (hc : img.data pos ≠ 0) :
    sepT rlog true (negImg img) pos i = sepT rlog true img pos i := by
  simp only [sepT]
  rw [show (negImg img).data pos = -(img.data pos) from rfl,
    show nbr (negImg img) pos i (-1) = -(nbr img pos i (-1)) from rfl,
    show nbr (negImg img) pos i 1 = -(nbr img pos i 1) from rfl,
    decide_neg_lt_zero _ hc]
  cases hb : decide (img.data pos < 0) <;> simp

lemma sepCoord_false_negImg (rlog : ℚ → ℚ) (img : Img) (pos : List Nat) (i : Nat) :
    sepCoord rlog false (negImg img) pos i = sepCoord rlog false img pos i := by
  unfold sepCoord
  rw [sepT_false_negImg]
  rcases h : sepT rlog false img pos i with ⟨t0, t1, t2⟩
  simp only
  by_cases hm : t0 - 2 * t1 + t2 = 0
  · rw [if_pos (by linarith), if_pos hm]
  · rw [if_neg (fun hc => hm (by linarith)), if_neg hm]
    congr 1
    rw [show -t0 - -t2 = -(t0 - t2) from by ring,
      show (2 : ℚ) * (-t0 - 2 * -t1 + -t2) = -(2 * (t0 - 2 * t1 + t2)) from by ring,
      neg_div_neg_eq]

lemma sepCoord_true_negImg (rlog : ℚ → ℚ) (img : Img) (pos : List Nat) (i : Nat)
    (hc : img.data pos ≠ 0) :
    sepCoord rlog true (negImg img) pos i = sepCoord rlog true img pos i := by
  unfold sepCoord
  rw [sepT_true_negImg rlog img pos i hc]

lemma sepVal_false_negImg (rlog rexp : ℚ → ℚ) (img : Img) (pos : List Nat) (i : Nat) :
    sepVal rlog rexp false (negImg img) pos i =
      (sepVal rlog rexp false img pos i).map (fun b => -b) := by
  unfold sepVal
  rw [sepT_false_negImg]
  rcases h : sepT rlog false img pos i with ⟨t0, t1, t2⟩
  simp only
  by_cases hm : t0 - 2 * t1 + t2 = 0
  · rw [if_pos (by linarith), if_pos hm]
    rfl
  · rw [if_neg (fun hc => hm (by linarith)), if_neg hm]
    simp only [Option.map_some', Option.some.injEq, Bool.false_eq_true, if_false]
    rw [show -t0 - -t2 = -(t0 - t2) from by ring,
      show (8 : ℚ) * (-t0 - 2 * -t1 + -t2) = -(8 * (t0 - 2 * t1 + t2)) from by ring,
      neg_mul_neg, div_neg]
    ring

lemma sepVal_true_negImg (rlog rexp : ℚ → ℚ) (img : Img) (pos : List Nat) (i : Nat)
    (hc : img.data pos ≠ 0) :
    sepVal rlog rexp true (negImg img) pos i =
      (sepVal rlog rexp true img pos i).map (fun b => -b) := by
  unfold sepVal
  rw [sepT_true_negImg rlog img pos i hc]
  rcases h : sepT rlog true img pos i with ⟨t0, t1, t2⟩
  simp only
  by_cases hm : t0 - 2 * t1 + t2 = 0
  · rw [if_pos hm, if_pos hm]
    rfl
  · rw [if_neg hm, if_neg hm]
    simp only [Option.map_some', Option.some.injEq]
    rcases lt_trichotomy (img.data pos) 0 with hlt | hlt | hlt
    · have h1 : ¬(-(img.data pos) < 0) := asymm (neg_pos.mpr hlt)
      simp [show (negImg img).data pos = -(img.data pos) from rfl, hlt, h1]
    · exact absurd hlt hc
    · have h1 : -(img.data pos) < 0 := neg_lt_zero.mpr hlt
      have h2 : ¬(img.data pos < 0) := asymm hlt
      simp [show (negImg img).data pos = -(img.data pos) from rfl, h1, h2]

lemma clampFold_neg (center : ℚ) (l : List (Option ℚ)) :
    clampFold false (-center) (l.map (Option.map (fun b => -b))) =
      -(clampFold true center l) := by
  induction l generalizing center with
  | nil => simp [clampFold]
  | cons a as ih =>
      rcases a with _ | b
      · simpa [clampFold] using ih center
      · have := ih (min center b)
        simpa [clampFold, max_neg_neg] using this

lemma sepValue_negImg (rlog rexp : ℚ → ℚ) (gauss : Bool) (img : Img) (pos : List Nat)
    (nd : Nat) (hc : gauss = true → img.data pos ≠ 0) :
    sepValue rlog rexp gauss false (negImg img) pos nd =
      -(sepValue rlog rexp gauss true img pos nd) := by
  unfold sepValue
  rw [show (negImg img).data pos = -(img.data pos) from rfl]
  rw [show (List.range nd).map (sepVal rlog rexp gauss (negImg img) pos) =
      ((List.range nd).map (sepVal rlog rexp gauss img pos)).map
        (Option.map (fun b => -b)) from by
    rw [List.map_map]
    apply List.map_congr_left
    intro i _
    cases gauss
    · exact sepVal_false_negImg rlog rexp img pos i
    · exact sepVal_true_negImg rlog rexp img pos i (hc rfl)]
  exact clampFold_neg _ _

lemma offAt_zero (p : List Nat) (i : Nat) : offAt p i 0 = p := by
  unfold offAt
  rw [show ((p.getD i 0 : Int) + 0).toNat = p.getD i 0 from by simp]
  induction p generalizing i with
  | nil => rfl
  | cons a as ih =>
      cases i with
      | zero => simp
      | succ j =>
          show a :: as.set j (as.getD j 0) = a :: as
          rw [ih j]

lemma stencil2_center (img : Img) (pos : List Nat) :
    (stencil2 img pos).getD 4 0 = img.data pos := by
  simp [stencil2, off2, offAt_zero]

lemma stencil3_center (img : Img) (pos : List Nat) :
    (stencil3 img pos).getD 13 0 = img.data pos := by
  simp [stencil3, off3, offAt_zero]

/-- Minimum-polarity internal processing equals Maximum-polarity internal
processing of the negated grid with the value negated back; for the Gaussian
methods the candidate's sample must be nonzero. -/
lemma internal_negImg (rlog rexp : ℚ → ℚ) (img : Img) (pos : List Nat)
    (method : SubpixelExtremumMethod)
    (hc : (method = GAUSSIAN ∨ method = GAUSSIAN_SEPARABLE) → img.data pos ≠ 0) :
    SubpixelLocationInternal rlog rexp img pos method true =
      Except.map (fun r => ⟨r.coordinates, -(r.value)⟩)
        (SubpixelLocationInternal rlog rexp (negImg img) pos method false) := by
  cases method
  case LINEAR =>
    simp only [SubpixelLocationInternal]
    rw [show (negImg img).sizes = img.sizes from rfl,
      show (negImg img).data pos = -(img.data pos) from rfl,
      funext (linearCoord_negImg img pos)]
    simp [Except.map]
  case INTEGER =>
    simp only [SubpixelLocationInternal]
    rw [show (negImg img).sizes = img.sizes from rfl,
      show (negImg img).data pos = -(img.data pos) from rfl]
    simp [Except.map]
  case PARABOLIC_SEPARABLE =>
    simp only [SubpixelLocationInternal]
    rw [show (negImg img).sizes = img.sizes from rfl,
      funext (sepCoord_false_negImg rlog img pos),
      sepValue_negImg rlog rexp false img pos img.sizes.length (fun h => by simp at h)]
    simp [Except.map]
  case GAUSSIAN_SEPARABLE =>
    simp only [SubpixelLocationInternal]
    rw [show (negImg img).sizes = img.sizes from rfl,
      funext (fun i => sepCoord_true_negImg rlog img pos i (hc (Or.inr rfl))),
      sepValue_negImg rlog rexp true img pos img.sizes.length
        (fun _ => hc (Or.inr rfl))]
    simp [Except.map]
  case PARABOLIC =>
    simp only [SubpixelLocationInternal]
    exact jointResult_negImg rlog rexp img pos false (fun h => by simp at h)
      (fun h => by simp at h)
  case GAUSSIAN =>
    simp only [SubpixelLocationInternal]
    exact jointResult_negImg rlog rexp img pos true
      (fun _ => by rw [stencil2_center]; exact hc (Or.inl rfl))
      (fun _ => by rw [stencil3_center]; exact hc (Or.inl rfl))

lemma ParseMethod_gauss_str (s : String) (nd : Nat) (m : SubpixelExtremumMethod)
    (h : ParseMethod s nd = .ok m) (hm : m = GAUSSIAN ∨ m = GAUSSIAN_SEPARABLE) :
    s = Sgaussian ∨ s = SgaussianSeparable := by
  unfold ParseMethod at h
  split_ifs at h <;> rcases hm with rfl | rfl <;> simp_all

/-- C5 (amended): for every grid, candidate and method string,
Minimum-polarity localization equals Maximum-polarity localization on the
negated grid with the returned value negated back and the coordinates
unchanged — provided, for the two Gaussian methods, that the raw sample at
the candidate is nonzero. -/
theorem C5_minimum_negate_fit_negate (rlog rexp : ℚ → ℚ) (img : Img) (pos : List Nat)
    (s_method : String)
    (hg : (s_method = Sgaussian ∨ s_method = SgaussianSeparable) → img.data pos ≠ 0) :
    SubpixelLocation rlog rexp img pos Sminimum s_method =
      Except.map (fun r => ⟨r.coordinates, -(r.value)⟩)
        (SubpixelLocation rlog rexp (negImg img) pos Smaximum s_method) := by
  unfold SubpixelLocation
  rw [show (negImg img).forged = img.forged from rfl,
    show (negImg img).scalar = img.scalar from rfl,
    show (negImg img).dtypeReal = img.dtypeReal from rfl,
    show (negImg img).sizes = img.sizes from rfl,
    show (negImg img).data pos = -(img.data pos) from rfl]
  split_ifs
  any_goals rfl
  rcases hscan : borderScan pos img.sizes with _ | b
  · rw [show BooleanFromString Sminimum Sminimum Smaximum = .ok true from rfl,
      show BooleanFromString Smaximum Sminimum Smaximum = .ok false from rfl]
    rcases hp : ParseMethod s_method img.sizes.length with e | m
    · rfl
    · exact internal_negImg rlog rexp img pos m
        (fun hmm => hg (ParseMethod_gauss_str s_method img.sizes.length m hp hmm))
  · cases b
    · simp [Except.map]
    · rfl

/-- A computable stand-in for the natural logarithm used by the C5
counterexample: it only matters that it does not identify `log x` with
`log (-x)` (the real log of a negative argument is NaN). -/
def crlog : ℚ → ℚ := fun q => if q < 0 then 0 else q

/-- Concrete 1D grid with samples `1, 0, 4`: the candidate's sample is 0, so
the Gaussian sign-inversion flag does not flip under negation. -/
def cImgG : Img := ⟨true, true, true, [3], 1, fun p => [(1 : ℚ), 0, 4].getD (p.getD 0 0) 0⟩

/-- Counterexample to C5 as stated: for the GaussianSeparable method at an
interior candidate whose sample is 0, Minimum processing and negated Maximum
processing disagree (both sides log different data because the inversion flag
is keyed on `center < 0`). -/
theorem C5_counterexample :
    SubpixelLocation crlog id cImgG [1] Sminimum SgaussianSeparable ≠
      Except.map (fun r => ⟨r.coordinates, -(r.value)⟩)
        (SubpixelLocation crlog id (negImg cImgG) [1] Smaximum SgaussianSeparable) := by
  have hL : SubpixelLocation crlog id cImgG [1] Sminimum SgaussianSeparable =
      .ok ⟨[7/10], -9/40⟩ := by
    rw [SubpixelLocation_run crlog id cImgG [1] Sminimum SgaussianSeparable rfl rfl rfl rfl
      (by norm_num [cImgG]) (by decide) true GAUSSIAN_SEPARABLE rfl rfl]
    simp only [SubpixelLocationInternal, show cImgG.sizes.length = 1 from rfl,
      List.range_succ, List.range_zero, List.map_cons, List.map_nil, List.nil_append]
    norm_num [sepCoord, sepVal, sepValue, sepT, clampFold, cImgG, nbr, offAt, crlog,
      show ((2 : Int)).toNat = 2 from rfl, List.range_succ]
  have hR : SubpixelLocation crlog id (negImg cImgG) [1] Smaximum SgaussianSeparable =
      .ok ⟨[1], 0⟩ := by
    rw [SubpixelLocation_run crlog id (negImg cImgG) [1] Smaximum SgaussianSeparable
      rfl rfl rfl rfl (by norm_num [negImg, cImgG]) (by decide) false GAUSSIAN_SEPARABLE
      rfl rfl]
    simp only [SubpixelLocationInternal, show (negImg cImgG).sizes.length = 1 from rfl,
      List.range_succ, List.range_zero, List.map_cons, List.map_nil, List.nil_append]
    norm_num [sepCoord, sepVal, sepValue, sepT, clampFold, negImg, cImgG, nbr, offAt,
      crlog, show ((2 : Int)).toNat = 2 from rfl, List.range_succ]
  rw [hL, hR]
  simp only [Except.map, ne_eq, Except.ok.injEq, SubpixelLocationResult.mk.injEq]
  intro h
  have := h.1
  simp only [List.cons.injEq] at this
  norm_num at this

/-- Witness for the amended C5 at a concrete grid with nonzero candidate
sample. -/
theorem C5_minimum_negate_fit_negate_witness :
    SubpixelLocation id id cImg1 [1] Sminimum SgaussianSeparable =
      Except.map (fun r => ⟨r.coordinates, -(r.value)⟩)
        (SubpixelLocation id id (negImg cImg1) [1] Smaximum SgaussianSeparable) :=
  C5_minimum_negate_fit_negate id id cImg1 [1] SgaussianSeparable
    (fun _ => by norm_num [cImg1])
